import Mathlib

/-!
# Verification of the geospatial prompt/LOD backend

Shallow embedding of the backend of `hiring-task-starter` (Python) in Lean 4,
together with theorems settling the frozen claims C1–C10.

Conventions used throughout this development:

* Python floats that only ever carry exact decimal data (coordinates, zoom
  levels, budgets) are embedded as `ℚ`; quantities that genuinely require
  transcendental arithmetic (Web-Mercator projection, Euclidean distances)
  are embedded as `ℝ`.
* Python lists become `List`, `dict`s become association lists with Python's
  insert-or-overwrite semantics (`dictSet` below), and Python's stable
  `list.sort` becomes a stable insertion sort (`insertionSortBy`).
* Third-party geometry primitives (`shapely`, `pyproj`) are not repository
  code; where repository functions call them we either model the primitive
  exactly (point-in-polygon location, segment intersection — GEOS's exact
  predicates over rational inputs) or abstract it as an explicit function
  argument when no claim depends on its behaviour (Douglas–Peucker
  simplification, clustering grids).
* Mutable bounded caches are pure-value transparent in this model: every
  cached function is embedded by its recomputation.  No claim below is about
  cache behaviour.
* Python `while` loops are embedded with an explicit fuel argument that is
  provably large enough (each iteration removes a list element, so the list
  length bounds the iteration count); when the fuel reaches zero the list is
  empty and the Python loop guard (`while out and ...`) would have stopped
  as well.
-/

namespace GeoBackend

/-- A lon/lat (or projected x/y) coordinate pair, `backend/layers/types.py`
coordinates embedded as exact rationals. -/
abbrev Coord := ℚ × ℚ

/-- Feature `props` mapping; the router only performs string-valued lookups
(`str(v)` comparisons), so props are embedded as string-to-string
association lists. -/
abbrev Props := List (String × String)

/-- Embedding of `layers/types.py::PointFeature`. -/
structure PointFeature where
  id : String
  lon : ℚ
  lat : ℚ
  props : Props
deriving DecidableEq, Repr

/-- Embedding of `layers/types.py::LineFeature`. -/
structure LineFeature where
  id : String
  coords : List Coord
  props : Props
deriving DecidableEq, Repr

/-- Embedding of `layers/types.py::PolygonFeature`. -/
structure PolygonFeature where
  id : String
  rings : List (List Coord)
  props : Props
deriving DecidableEq, Repr

/-- Embedding of `layers/types.py::GeometryKind` (a Python `Literal` of three strings). -/
inductive GeometryKind where
  | points
  | lines
  | polygons
deriving DecidableEq, Repr

/-- Embedding of `layers/types.py::LayerFeature` (the union of the three variants). -/
inductive Feature where
  | point (p : PointFeature)
  | line (l : LineFeature)
  | polygon (p : PolygonFeature)
deriving DecidableEq, Repr

/-- The id of a feature, any variant (`getattr(f, "id")`). -/
def Feature.fid : Feature → String
  | .point p => p.id
  | .line l => l.id
  | .polygon p => p.id

/-- Embedding of `layers/types.py::Layer`.  `style` is a free-form dict of rendering
hints; the backend never inspects it in the code under study, so it is kept
as an opaque string-keyed association list. -/
structure Layer where
  id : String
  kind : GeometryKind
  title : String
  features : List Feature
  style : List (String × String)
deriving DecidableEq, Repr

/-- Embedding of `layers/types.py::LayerBundle`. -/
structure LayerBundle where
  layers : List Layer
deriving DecidableEq, Repr

/-- Embedding of `LayerBundle.get`: first layer with the given id, `None` otherwise.
(The Python code also strips the requested id; claims only use ids that are
already stripped, so the strip is omitted from the embedding.) -/
def LayerBundle.get (b : LayerBundle) (layerId : String) : Option Layer :=
  b.layers.find? (fun l => l.id == layerId)

/-- Embedding of `geo/aoi.py::BBox` (WGS84 lon/lat bounding box). -/
structure BBox where
  min_lon : ℚ
  min_lat : ℚ
  max_lon : ℚ
  max_lat : ℚ
deriving DecidableEq, Repr

/-- Embedding of `BBox.normalized`: swap inverted bounds. -/
def BBox.normalized (b : BBox) : BBox :=
  { min_lon := min b.min_lon b.max_lon
    min_lat := min b.min_lat b.max_lat
    max_lon := max b.min_lon b.max_lon
    max_lat := max b.min_lat b.max_lat }

/-! ## Python-container helpers -/

/-- Python `dict` assignment `d[k] = v`: overwrite the binding if the key is
present, otherwise append the new binding (dicts preserve insertion order). -/
def dictSet {α : Type} (d : List (String × α)) (k : String) (v : α) :
    List (String × α) :=
  if d.any (fun kv => kv.1 == k) then
    d.map (fun kv => if kv.1 == k then (k, v) else kv)
  else
    d ++ [(k, v)]

/-- Python `d.get(k)`. -/
def dictGet {α : Type} (d : List (String × α)) (k : String) : Option α :=
  (d.find? (fun kv => kv.1 == k)).map (·.2)

/-- Stable insertion of `x` into `l` w.r.t. a (total-preorder) boolean `le`:
`x` is placed before the first element it compares `le` to, hence before all
elements with an equal key — exactly the placement Python's stable
`list.sort` gives an earlier element. -/
def insertLe {α : Type} (le : α → α → Bool) (x : α) : List α → List α
  | [] => [x]
  | y :: ys => if le x y then x :: y :: ys else y :: insertLe le x ys

/-- Stable insertion sort, the embedding of Python's stable `list.sort`. -/
def insertionSortBy {α : Type} (le : α → α → Bool) : List α → List α
  | [] => []
  | x :: xs => insertLe le x (insertionSortBy le xs)

/-- Python string `<=` (code-point lexicographic); Lean's `String` order has
the same semantics. -/
def strLe (a b : String) : Bool := a ≤ b

/-! ## GeoParquet WKB decoding (`engine/duckdb_impl/geoparquet/decode.py`)

`shapely.wkb.loads` is a third-party decoder; its output is modelled by the
`WkbGeom` value already carried by a row (a row whose blob fails to decode,
or whose blob is `NULL`, carries `none`, matching the `try/except` +
`is None` handling in the source). -/

/-- The geometry variants `decode_line_rows` / `decode_polygon_rows`
dispatch on (`geom.geom_type`). -/
inductive WkbGeom where
  | lineString (coords : List Coord)
  | multiLineString (parts : List (List Coord))
  | polygon (exterior : List Coord)
  | multiPolygon (parts : List (List Coord))
deriving DecidableEq, Repr

/-- A DuckDB row `(fid, geom_wkb, name, fclass)` with the WKB blob already
decoded (or `none` on decode failure / NULL). -/
structure GeomRow where
  fid : String
  geom : Option WkbGeom
  name : Option String
  fclass : Option String
deriving DecidableEq, Repr

/-- Embedding of `decode.py::_props`: include `name` / `fclass` when truthy (non-empty). -/
def decodeProps (name fclass : Option String) : Props :=
  (match name with
   | some n => if n ≠ "" then [("name", n)] else []
   | none => []) ++
  (match fclass with
   | some c => if c ≠ "" then [("fclass", c)] else []
   | none => [])

/-- The `for i, part in enumerate(geom.geoms)` loop of `decode_line_rows`,
with the running part index made explicit. -/
def decodeLineParts (fid : String) (props : Props) (i : ℕ) :
    List (List Coord) → List LineFeature
  | [] => []
  | part :: rest =>
    (if 2 ≤ part.length
     then [⟨fid ++ ":" ++ toString i, part, props⟩]
     else []) ++ decodeLineParts fid props (i + 1) rest

/-- Embedding of `decode.py::decode_line_rows`. -/
def decode_line_rows (rows : List GeomRow) : List LineFeature :=
  rows.flatMap (fun r =>
    match r.geom with
    | none => []
    | some (.lineString coords) =>
      if 2 ≤ coords.length then [⟨r.fid, coords, decodeProps r.name r.fclass⟩] else []
    | some (.multiLineString parts) =>
      decodeLineParts r.fid (decodeProps r.name r.fclass) 0 parts
    | some _ => [])

/-- Embedding of `decode.py::decode_polygon_rows::_poly_to_feature`: keep the exterior
ring only, dropping rings with fewer than 4 coordinates. -/
def polyToFeature (pid : String) (exterior : List Coord) (props : Props) :
    List PolygonFeature :=
  if 4 ≤ exterior.length then [⟨pid, [exterior], props⟩] else []

/-- The `for i, part in enumerate(geom.geoms)` loop of
`decode_polygon_rows`. -/
def decodePolyParts (fid : String) (props : Props) (i : ℕ) :
    List (List Coord) → List PolygonFeature
  | [] => []
  | part :: rest =>
    polyToFeature (fid ++ ":" ++ toString i) part props ++
      decodePolyParts fid props (i + 1) rest

/-- Embedding of `decode.py::decode_polygon_rows`. -/
def decode_polygon_rows (rows : List GeomRow) : List PolygonFeature :=
  rows.flatMap (fun r =>
    match r.geom with
    | none => []
    | some (.polygon exterior) =>
      polyToFeature r.fid exterior (decodeProps r.name r.fclass)
    | some (.multiPolygon parts) =>
      decodePolyParts r.fid (decodeProps r.name r.fclass) 0 parts
    | some _ => [])

/-! ## Candidate caps (`engine/duckdb_impl/geoparquet/config.py`,
`layer.py`) -/

/-- Embedding of `config.py::safety_limit`. -/
def safety_limit (kind : GeometryKind) (view_zoom : ℚ) : ℤ :=
  if view_zoom ≤ (15 : ℚ) / 2 then
    match kind with
    | .points => 50000
    | .lines => 20000
    | .polygons => 10000
  else if view_zoom ≤ 9 then
    match kind with
    | .points => 150000
    | .lines => 60000
    | .polygons => 30000
  else
    match kind with
    | .points => 500000
    | .lines => 200000
    | .polygons => 100000

/-- Embedding of `layer.py::query_geoparquet_layer_bbox` lines 111–128: the effective
candidate limit for a lines/polygons geometry query.  `maxCandidates` is the
value `choose_by_max_zoom` selected from the render policy's
`maxCandidatesByZoom` mapping (`none` when the policy gives no value). -/
def effective_cand_limit (kind : GeometryKind) (view_zoom : ℚ)
    (maxCandidates : Option ℤ) : ℤ :=
  let safety := safety_limit kind view_zoom
  let candLimit := safety
  let candLimit :=
    match maxCandidates with
    | some mc => max 1 (min candLimit mc)
    | none => candLimit
  let hardCap : Option ℤ :=
    match kind with
    | .lines => some 9000
    | .polygons => some 5000
    | .points => none
  match hardCap with
  | some hc => max 1 (min candLimit hc)
  | none => candLimit

/-! ## Streamed-event protocol (`api/invoke_stream.py`) -/

/-- Embedding of `invoke_stream.py::EventType`. -/
inductive EventType where
  | append
  | plotData
  | commit
deriving DecidableEq, Repr

/-- Where, if anywhere, `handle_incoming_message`'s `try` body raises.
Every fallible statement of the body sits either before the message words
are streamed (AOI normalisation, scenario lookup, engine `get`, router) or
between the message words and the `plot_data` yield (LOD, plot build, the
final `json.dumps`); after the `plot_data` yield only the `commit` yield
remains and it cannot raise. -/
inductive FailPoint where
  | beforeMessage
  | beforeAplotData
  | noFailure
deriving DecidableEq, Repr

/-- The sequence of SSE events `handle_incoming_message` yields, as a
function of the streamed word lists and of where (if anywhere) the `try`
body raises.  Mirrors `invoke_stream.py` lines 128–287: the message words
are streamed as `append` events; the clipped-highlight note (when present)
adds more `append` events; then the single `plot_data` and the single
`commit`.  The `except` handler streams the error text as `append` events
followed by `commit`. -/
def handler_events (messageWords noteWords errorWords : List String)
    (fail : FailPoint) : List EventType :=
  match fail with
  | .beforeMessage =>
    errorWords.map (fun _ => EventType.append) ++ [EventType.commit]
  | .beforeAplotData =>
    messageWords.map (fun _ => EventType.append) ++
      errorWords.map (fun _ => EventType.append) ++ [EventType.commit]
  | .noFailure =>
    messageWords.map (fun _ => EventType.append) ++
      noteWords.map (fun _ => EventType.append) ++
      [EventType.plotData, EventType.commit]

/-- Acceptor for the event regular expression
`append* plot_data append* commit` (nothing before, nothing after):
state after `plot_data` has been seen. -/
def protocolTail : List EventType → Bool
  | [EventType.commit] => true
  | EventType.append :: rest => protocolTail rest
  | _ => false

/-- Acceptor for `append* plot_data append* commit`. -/
def matchesProtocol : List EventType → Bool
  | EventType.plotData :: rest => protocolTail rest
  | EventType.append :: rest => matchesProtocol rest
  | _ => false

/-- The event-ordering property claim C2 asserts of every streamed
response: the sequence matches `append* plot_data append* commit` with
exactly one `plot_data` and exactly one `commit`. -/
def C2Shape (evs : List EventType) : Prop :=
  matchesProtocol evs = true ∧
    evs.count EventType.plotData = 1 ∧ evs.count EventType.commit = 1

instance (evs : List EventType) : Decidable (C2Shape evs) := by
  unfold C2Shape; infer_instance

/-! ## Exact planar geometry

The repository delegates point-in-polygon and intersection tests to
shapely/GEOS, which evaluates them with exact predicates.  Over rational
inputs those predicates are the textbook ones modelled here: orientation
sign tests, point-on-segment tests, and even-odd ray crossing with an
explicit boundary check (GEOS `RayCrossingCounter` semantics: a boundary
point is classified `BOUNDARY`, never `INTERIOR`). -/

/-- Twice the signed area of triangle `a b c`. -/
def orient (a b c : Coord) : ℚ :=
  (b.1 - a.1) * (c.2 - a.2) - (b.2 - a.2) * (c.1 - a.1)

/-- Whether `p` lies on the closed segment `[a, b]`. -/
def onSegment (a b p : Coord) : Bool :=
  orient a b p == 0 &&
    min a.1 b.1 ≤ p.1 && p.1 ≤ max a.1 b.1 &&
    min a.2 b.2 ≤ p.2 && p.2 ≤ max a.2 b.2

/-- Close a ring the way `shapely.geometry.Polygon` does on construction:
append the first vertex when the ring is not already closed. -/
def closeRing (ring : List Coord) : List Coord :=
  match ring.head? with
  | none => []
  | some h => if ring.getLast? = some h ∧ 2 ≤ ring.length then ring else ring ++ [h]

/-- Consecutive-vertex edges of a closed ring. -/
def ringEdges (ring : List Coord) : List (Coord × Coord) :=
  let c := closeRing ring
  c.zip c.tail

/-- Edge `(a, b)` crosses the horizontal ray from `p` towards `+x`
(standard even-odd crossing rule; the guard makes the two `y`s differ, so
the division is by a non-zero rational). -/
def edgeCrossesRay (p : Coord) (e : Coord × Coord) : Bool :=
  let a := e.1
  let b := e.2
  ((decide (a.2 > p.2)) != (decide (b.2 > p.2))) &&
    p.1 < a.1 + (b.1 - a.1) * (p.2 - a.2) / (b.2 - a.2)

/-- Whether `p` lies on the boundary of the polygon with outer ring `ring`. -/
def pointOnRingBoundary (ring : List Coord) (p : Coord) : Bool :=
  (ringEdges ring).any (fun e => onSegment e.1 e.2 p)

/-- The even-odd crossing parity of `p` w.r.t. `ring`. -/
def rayParityOdd (ring : List Coord) (p : Coord) : Bool :=
  ((ringEdges ring).filter (edgeCrossesRay p)).length % 2 == 1

/-- GEOS point location against a polygon (exterior ring only — the
backend only ever builds polygons from outer rings,
`geo/index.py::build_geo_index`). -/
inductive PointPos where
  | boundary
  | inside
  | outside
deriving DecidableEq, Repr

/-- Locate `p` relative to the polygon with outer ring `ring`: boundary
points are detected first, then even-odd parity decides interior versus
exterior. -/
def locatePoint (ring : List Coord) (p : Coord) : PointPos :=
  if pointOnRingBoundary ring p then .boundary
  else if rayParityOdd ring p then .inside
  else .outside

/-- A polygon union is modelled as the list of member outer rings (the
result of `unary_union` over `Polygon(ring0)` geometries).  A point is in
the union's interior iff it is in the interior of some member; this agrees
with GEOS except at points shared by the boundaries of two or more members,
which the claims' hypotheses exclude. -/
abbrev PolyUnion := List (List Coord)

/-- Embedding of `geo/index.py::is_point_in_union`: `union.contains(Point(...))` —
strict interior containment. -/
def is_point_in_union (p : PointFeature) (u : PolyUnion) : Bool :=
  u.any (fun ring => locatePoint ring (p.lon, p.lat) == .inside)

/-- CLRS-style exact segment/segment intersection (closed segments). -/
def segmentsIntersect (p1 p2 q1 q2 : Coord) : Bool :=
  let d1 := orient q1 q2 p1
  let d2 := orient q1 q2 p2
  let d3 := orient p1 p2 q1
  let d4 := orient p1 p2 q2
  (((d1 > 0 && d2 < 0) || (d1 < 0 && d2 > 0)) &&
   ((d3 > 0 && d4 < 0) || (d3 < 0 && d4 > 0))) ||
  (d1 == 0 && onSegment q1 q2 p1) ||
  (d2 == 0 && onSegment q1 q2 p2) ||
  (d3 == 0 && onSegment p1 p2 q1) ||
  (d4 == 0 && onSegment p1 p2 q2)

/-- Consecutive-vertex segments of a line string. -/
def lineSegments (coords : List Coord) : List (Coord × Coord) :=
  coords.zip coords.tail

/-- shapely `line.intersects(polygon)`: the line string meets the closed
polygon region iff some vertex is not strictly outside it or some line
segment meets some boundary edge. -/
def lineIntersectsRingPoly (ring : List Coord) (coords : List Coord) : Bool :=
  coords.any (fun p => locatePoint ring p != .outside) ||
    (lineSegments coords).any (fun s =>
      (ringEdges ring).any (fun e => segmentsIntersect s.1 s.2 e.1 e.2))

/-- shapely `line.intersects(union)` for a union of polygons. -/
def lineIntersectsUnion (u : PolyUnion) (coords : List Coord) : Bool :=
  u.any (fun ring => lineIntersectsRingPoly ring coords)

/-- Envelope (bbox) of a ring, as GEOS computes it for the STRtree. -/
def ringEnvelope (ring : List Coord) : Option BBox :=
  match ring with
  | [] => none
  | c :: rest =>
    some (rest.foldl
      (fun b q =>
        { min_lon := min b.min_lon q.1, min_lat := min b.min_lat q.2
          max_lon := max b.max_lon q.1, max_lat := max b.max_lat q.2 })
      { min_lon := c.1, min_lat := c.2, max_lon := c.1, max_lat := c.2 })

/-- Two bboxes intersect (closed-region test, GEOS envelope semantics). -/
def bboxIntersects (a b : BBox) : Bool :=
  a.min_lon ≤ b.max_lon && b.min_lon ≤ a.max_lon &&
    a.min_lat ≤ b.max_lat && b.min_lat ≤ a.max_lat

/-- Embedding of `geo/index.py::build_geo_index` polygon geometries: one
`Polygon(ring[0])` per polygon feature with a non-empty first ring. -/
def layerPolygonRings (l : Layer) : List (List Coord) :=
  l.features.filterMap (fun f =>
    match f with
    | .polygon pf =>
      match pf.rings.head? with
      | some ring => if ring ≠ [] then some ring else none
      | none => none
    | _ => none)

/-- Embedding of `geo/index.py::GeoIndex.polygon_union_for_aoi` (cache-transparent):
the union of the layer's polygons whose envelope intersects the AOI box.
A missing layer, a non-polygon layer, or an empty candidate set gives the
empty union (`Polygon()`). -/
def polygon_union_for_aoi (layers : LayerBundle) (layerId : String)
    (aoi : BBox) : PolyUnion :=
  match layers.get layerId with
  | none => []
  | some l =>
    if l.kind ≠ .polygons then []
    else
      (layerPolygonRings l).filter (fun ring =>
        match ringEnvelope ring with
        | some env =>
          bboxIntersects env
            ⟨aoi.min_lon, aoi.min_lat, aoi.max_lon, aoi.max_lat⟩
        | none => false)

/-! ## LOD pipeline (`lod/policy.py`)

`_simplify_lines` / `_simplify_polygons` project into EPSG:3857 and call
shapely's Douglas–Peucker `simplify`; they are floating-point/third-party
geometry and are abstracted as explicit function arguments (`simpLines`,
`simpPolys`); likewise `_cluster_points` (`clusterPts`).  Every claim about
the LOD pipeline below is either independent of these arguments or
quantifies over them.  All budget accounting, capping, ordering and layer
plumbing — the repository's own logic — is embedded exactly. -/

/-- Embedding of `lod/policy.py::ClusterMarker` (coordinates are projected floats,
embedded as reals). -/
structure ClusterMarker where
  lon : ℝ
  lat : ℝ
  count : ℕ

/-- Embedding of `lod/policy.py::LodBudgets`. -/
structure LodBudgets where
  max_points_rendered : ℕ := 2500
  max_aux_points_rendered : ℕ := 3000
  max_line_vertices : ℕ := 40000
  max_poly_vertices : ℕ := 80000

/-- Embedding of `lod/policy.py::_line_tol_m`. -/
def line_tol_m (zoom : ℚ) : ℚ :=
  if zoom ≤ 6 then 250 else if zoom ≤ 8 then 150
  else if zoom ≤ 10 then 75 else if zoom ≤ 12 then 25 else 10

/-- Embedding of `lod/policy.py::_poly_tol_m`. -/
def poly_tol_m (zoom : ℚ) : ℚ :=
  if zoom ≤ 6 then 400 else if zoom ≤ 8 then 250
  else if zoom ≤ 10 then 120 else if zoom ≤ 12 then 40 else 15

/-- Embedding of `lod/policy.py::_count_line_vertices`. -/
def count_line_vertices (lines : List LineFeature) : ℕ :=
  (lines.map (fun l => l.coords.length)).sum

/-- Vertex count of one polygon (`sum(len(r) for r in p.rings)`). -/
def polyVertices (p : PolygonFeature) : ℕ :=
  (p.rings.map List.length).sum

/-- Embedding of `lod/policy.py::_count_poly_vertices`. -/
def count_poly_vertices (polys : List PolygonFeature) : ℕ :=
  (polys.map polyVertices).sum

/-- Embedding of `lod/policy.py::_should_cluster_points`. -/
def should_cluster_points (zoom : ℚ) (nPoints maxPoints : ℕ) : Bool :=
  zoom ≤ (19 : ℚ) / 2 || nPoints > maxPoints

/-- Embedding of `lod/policy.py::_cap_points`. -/
def cap_points (points : List PointFeature) (maxPoints : ℕ)
    (keepIds : Option (List String)) : List PointFeature :=
  if points.length ≤ maxPoints then points
  else
    let keep := keepIds.getD []
    let kept := points.filter (fun p => p.id ∈ keep)
    if maxPoints ≤ kept.length then
      (insertionSortBy (fun a b => strLe a.id b.id) kept).take maxPoints
    else
      let remaining := points.filter (fun p => p.id ∉ keep)
      (kept ++ insertionSortBy (fun a b => strLe a.id b.id) remaining).take maxPoints

/-- Sort key of the line hard-cap fallback: `(-len(l.coords), l.id)`. -/
def lineCapLe (a b : LineFeature) : Bool :=
  b.coords.length < a.coords.length ||
    (a.coords.length == b.coords.length && strLe a.id b.id)

/-- Sort key of the polygon hard-cap fallback: `(-v(p), p.id)`. -/
def polyCapLe (a b : PolygonFeature) : Bool :=
  polyVertices b < polyVertices a ||
    (polyVertices a == polyVertices b && strLe a.id b.id)

/-- Remove the first feature whose id is not in the keep set; `none` when
every feature is kept. -/
def popFirstNonKept (keep : List String) :
    List LineFeature → Option (List LineFeature)
  | [] => none
  | x :: xs =>
    if x.id ∈ keep then
      (popFirstNonKept keep xs).map (x :: ·)
    else some xs

/-- One iteration of the line-cap `while` loop: remove the first feature
whose id is not in the keep set; when every remaining feature is kept,
remove the head (`remove_idx = 0`). -/
def popPreferNonKept (keep : List String) : List LineFeature → List LineFeature
  | [] => []
  | x :: xs =>
    if x.id ∈ keep then
      match popFirstNonKept keep xs with
      | some rest => x :: rest
      | none => xs
    else xs

/-- The `while out and total > max_vertices` loop of
`_cap_lines_to_vertex_budget`; the fuel is the list length, which bounds the
number of pops. -/
def lineCapDropLoop (keep : List String) (maxVertices : ℕ) :
    ℕ → List LineFeature → List LineFeature
  | 0, out => out
  | fuel + 1, out =>
    if out = [] ∨ count_line_vertices out ≤ maxVertices then out
    else lineCapDropLoop keep maxVertices fuel (popPreferNonKept keep out)

/-- Embedding of `lod/policy.py::_cap_lines_to_vertex_budget`. -/
def cap_lines_to_vertex_budget (lines : List LineFeature) (maxVertices : ℕ)
    (keepIds : Option (List String)) : List LineFeature :=
  let keep := keepIds.getD []
  let out := insertionSortBy lineCapLe lines
  let out := lineCapDropLoop keep maxVertices out.length out
  insertionSortBy (fun a b => strLe a.id b.id) out

/-- The `while out and total > max_vertices` loop of
`_cap_polys_to_vertex_budget`: the head (heaviest) polygon is removed
unconditionally — this fallback takes no keep set. -/
def polyCapDropLoop (maxVertices : ℕ) :
    ℕ → List PolygonFeature → List PolygonFeature
  | 0, out => out
  | fuel + 1, out =>
    if out = [] ∨ count_poly_vertices out ≤ maxVertices then out
    else polyCapDropLoop maxVertices fuel out.tail

/-- Embedding of `lod/policy.py::_cap_polys_to_vertex_budget`. -/
def cap_polys_to_vertex_budget (polys : List PolygonFeature)
    (maxVertices : ℕ) : List PolygonFeature :=
  let out := insertionSortBy polyCapLe polys
  let out := polyCapDropLoop maxVertices out.length out
  insertionSortBy (fun a b => strLe a.id b.id) out

/-- Embedding of `lod/policy.py::_simplify_lines_until_budget`.  The `for tol in
tolerances` loop re-simplifies the *original* list at each escalated
tolerance and stops as soon as the count fits, which the fold's `if`
reproduces. -/
def simplify_lines_until_budget
    (simpLines : List LineFeature → ℚ → List LineFeature)
    (lines : List LineFeature) (zoom : ℚ) (maxVertices : ℕ)
    (keepIds : Option (List String)) : List LineFeature :=
  let baseTol := line_tol_m zoom
  let tolerances := [baseTol, baseTol * 2, baseTol * 4, baseTol * 8]
  let out := tolerances.foldl
    (fun out tol =>
      if count_line_vertices out ≤ maxVertices then out else simpLines lines tol)
    lines
  if maxVertices < count_line_vertices out then
    cap_lines_to_vertex_budget out maxVertices keepIds
  else out

/-- Embedding of `lod/policy.py::_simplify_polygons_until_budget` — note: no keep set
anywhere in the polygon path. -/
def simplify_polygons_until_budget
    (simpPolys : List PolygonFeature → ℚ → List PolygonFeature)
    (polys : List PolygonFeature) (zoom : ℚ) (maxVertices : ℕ) :
    List PolygonFeature :=
  let baseTol := poly_tol_m zoom
  let tolerances := [baseTol, baseTol * 2, baseTol * 4, baseTol * 8]
  let out := tolerances.foldl
    (fun out tol =>
      if count_poly_vertices out ≤ maxVertices then out else simpPolys polys tol)
    polys
  if maxVertices < count_poly_vertices out then
    cap_polys_to_vertex_budget out maxVertices
  else out

/-- Point features of a layer (`isinstance(f, PointFeature)` filter). -/
def pointFeats (l : Layer) : List PointFeature :=
  l.features.filterMap (fun f => match f with | .point p => some p | _ => none)

/-- Line features of a layer. -/
def lineFeats (l : Layer) : List LineFeature :=
  l.features.filterMap (fun f => match f with | .line lf => some lf | _ => none)

/-- Polygon features of a layer. -/
def polyFeats (l : Layer) : List PolygonFeature :=
  l.features.filterMap (fun f => match f with | .polygon p => some p | _ => none)

/-- The `keep_ids` expression `apply_lod` computes for line layers and for
the capped primary point layer (and — notably — computes for no polygon
layer). -/
def lodKeepIds (highlightLayerId : Option String)
    (highlightFeatureIds : Option (List String)) (layerId : String) :
    Option (List String) :=
  match highlightLayerId with
  | some hl => if layerId = hl then some (highlightFeatureIds.getD []) else none
  | none => none

/-- Embedding of `lod/policy.py::apply_lod`.  Returns the LOD'd bundle and the optional
cluster list.  `simpLines` / `simpPolys` / `clusterPts` stand for the
shapely-backed `_simplify_lines` / `_simplify_polygons` /
`_cluster_points`. -/
def apply_lod
    (simpLines : List LineFeature → ℚ → List LineFeature)
    (simpPolys : List PolygonFeature → ℚ → List PolygonFeature)
    (clusterPts : List PointFeature → ℚ → List ClusterMarker)
    (layers : LayerBundle) (view_zoom : ℚ)
    (highlight_layer_id : Option String)
    (highlight_feature_ids : Option (List String))
    (cluster_points_layer_id : String)
    (budgets : Option LodBudgets) : LayerBundle × Option (List ClusterMarker) :=
  let b := budgets.getD {}
  let zoom := view_zoom
  let polyLayers := layers.layers.filter (fun l => l.kind == .polygons)
  let lineLayers := layers.layers.filter (fun l => l.kind == .lines)
  let pointLayers := layers.layers.filter (fun l => l.kind == .points)
  let polyBudgetEach := b.max_poly_vertices / max 1 polyLayers.length
  let polyOut : List (String × List PolygonFeature) :=
    polyLayers.foldl
      (fun d l =>
        dictSet d l.id
          (simplify_polygons_until_budget simpPolys (polyFeats l) zoom
            polyBudgetEach))
      []
  let lineBudgetEach := b.max_line_vertices / max 1 lineLayers.length
  let lineOut : List (String × List LineFeature) :=
    lineLayers.foldl
      (fun d l =>
        dictSet d l.id
          (simplify_lines_until_budget simpLines (lineFeats l) zoom
            lineBudgetEach
            (lodKeepIds highlight_layer_id highlight_feature_ids l.id)))
      []
  let pointState : List (String × List PointFeature) ×
      Option (List ClusterMarker) :=
    pointLayers.foldl
      (fun st l =>
        let feats := pointFeats l
        if l.id = cluster_points_layer_id then
          if should_cluster_points zoom feats.length b.max_points_rendered then
            (dictSet st.1 l.id feats,
             some ((clusterPts feats zoom).take b.max_points_rendered))
          else if b.max_points_rendered < feats.length then
            (dictSet st.1 l.id
              (cap_points feats b.max_points_rendered
                (lodKeepIds highlight_layer_id highlight_feature_ids l.id)),
             st.2)
          else (dictSet st.1 l.id feats, st.2)
        else
          (dictSet st.1 l.id
            (if b.max_aux_points_rendered < feats.length then
              cap_points feats b.max_aux_points_rendered none
             else feats),
           st.2))
      ([], none)
  let pointOut := pointState.1
  let beerClusters := pointState.2
  let outLayers := layers.layers.map (fun l =>
    match l.kind with
    | .polygons =>
      { l with features := ((dictGet polyOut l.id).getD []).map .polygon }
    | .lines =>
      { l with features := ((dictGet lineOut l.id).getD []).map .line }
    | .points =>
      { l with features := ((dictGet pointOut l.id).getD []).map .point })
  (⟨outLayers⟩, beerClusters)

/-! ## Highlight payloads (`plotly/build_map.py`) and Python dataclass
keyword semantics

`plotly/build_map.py::Highlight` is a frozen dataclass with fields
`layer_id`, `feature_ids`, `title` — and no `mode` field.  The router
(`agent/router.py`) nevertheless constructs it as
`Highlight(..., mode="prompt")`; a Python dataclass `__init__` rejects an
unknown keyword argument with a `TypeError`.  The construction is therefore
embedded as a checked call that succeeds exactly when every keyword used by
the call site is a declared field. -/

/-- A `Highlight` value (`feature_ids` is a Python `set`; it is carried as
the list the router built it from, compared up to membership). -/
structure Highlight where
  layer_id : String
  feature_ids : List String
  title : Option String
deriving DecidableEq, Repr

/-- The field names of the `Highlight` dataclass in
`plotly/build_map.py` (lines 11–19). -/
def highlight_dataclass_fields : List String :=
  ["layer_id", "feature_ids", "title"]

/-- The keyword arguments the router passes at
`agent/router.py:252` (and at every other `Highlight(...)` call site of the
router). -/
def router_highlight_kwargs : List String :=
  ["layer_id", "feature_ids", "title", "mode"]

/-- Python error values surfaced by the embedded router. -/
inductive PyError where
  | typeError (message : String)
deriving DecidableEq, Repr

/-- Python dataclass construction with keyword arguments: raises
`TypeError` on any keyword that is not a declared field. -/
def mkHighlight (kwargs : List String) (h : Highlight) :
    Except PyError Highlight :=
  if kwargs.all (fun k => highlight_dataclass_fields.contains k) then
    Except.ok h
  else
    Except.error (.typeError
      "Highlight.__init__() got an unexpected keyword argument")

/-- Embedding of `agent/router.py::AgentResponse`. -/
structure AgentResponse where
  message : String
  highlight : Option Highlight := none
  highlights : Option (List Highlight) := none
  focus_map : Bool := false
deriving DecidableEq, Repr

/-- Embedding of `scenarios/types.py::ScenarioHighlightRule` (pydantic model;
`maxFeatures` defaults to 500). -/
structure ScenarioHighlightRule where
  keywords : List String
  layerId : String
  title : Option String := none
  maxFeatures : ℕ := 500
  maskLayerId : Option String := none
  maskMode : String := "IN_MASK"
  props : Option (List (String × List String)) := none
deriving DecidableEq, Repr

/-- Embedding of `scenarios/types.py::ScenarioProximityRule`. -/
structure ScenarioProximityRule where
  layerId : String
  maxMeters : ℚ
  penalty : ℚ := 1
deriving DecidableEq, Repr

/-- Embedding of `scenarios/types.py::ScenarioRouting` (the fields the embedded routes
read). -/
structure ScenarioRouting where
  primaryPointsLayerId : String
  maskPolygonsLayerId : Option String := none
  pointLabelSingular : String := "point"
  pointLabelPlural : String := "points"
  maskLabel : String := "masked area"
  proximity : List ScenarioProximityRule := []
  highlightRules : List ScenarioHighlightRule := []
deriving DecidableEq, Repr

/-- The two point lists `_count_points_in_mask` builds (router lines
127–128): `(in_mask, out_mask)`. -/
def maskInOut (pts : List PointFeature) (u : PolyUnion) :
    List PointFeature × List PointFeature :=
  (pts.filter (fun p => is_point_in_union p u),
   pts.filter (fun p => ¬ is_point_in_union p u))

/-- The mask filter of `_apply_highlight_rule` (router lines 172–175):
retain points outside the union for `OUTSIDE_MASK`, inside it otherwise. -/
def maskFilterPoints (u : PolyUnion) (maskMode : String)
    (pts : List PointFeature) : List PointFeature :=
  if maskMode = "OUTSIDE_MASK" then
    pts.filter (fun p => ¬ is_point_in_union p u)
  else
    pts.filter (fun p => is_point_in_union p u)

/-- Embedding of `agent/router.py::_count_points_in_mask`. -/
def count_points_in_mask (layers : LayerBundle) (aoi : BBox)
    (routing : ScenarioRouting) : AgentResponse :=
  match layers.get routing.primaryPointsLayerId with
  | none =>
    { message := "This scenario has no configured primary point layer." }
  | some ptsLayer =>
    if ptsLayer.kind ≠ .points then
      { message := "This scenario has no configured primary point layer." }
    else
      let pts := pointFeats ptsLayer
      match routing.maskPolygonsLayerId with
      | none =>
        { message := "I found " ++ toString pts.length ++ " " ++
            routing.pointLabelPlural ++ "." }
      | some maskId =>
        let u := polygon_union_for_aoi layers maskId aoi
        let io := maskInOut pts u
        { message := "I found " ++ toString io.1.length ++ " " ++
            routing.pointLabelPlural ++ " in " ++ routing.maskLabel ++
            " and " ++ toString io.2.length ++ " outside of it." }

/-- The props filter of `_apply_highlight_rule` (router lines 153–165):
every rule prop key must be present with a (stringified) value in the
allowed set. -/
def propsFilterOk (ruleProps : List (String × List String)) (f : Feature) :
    Bool :=
  let props : Props :=
    match f with
    | .point p => p.props
    | .line l => l.props
    | .polygon p => p.props
  ruleProps.all (fun kv =>
    match dictGet props kv.1 with
    | some v => kv.2.contains v
    | none => false)

/-- The feature list of `_apply_highlight_rule` after the optional props
filter and the optional mask filter (router lines 149–175), together with
the pre-filter list. -/
def highlight_rule_feats (layers : LayerBundle) (aoi : BBox)
    (rule : ScenarioHighlightRule) (layer : Layer) :
    List Feature × List Feature :=
  let featsBefore := layer.features
  let feats :=
    match rule.props with
    | some ps => featsBefore.filter (propsFilterOk ps)
    | none => featsBefore
  let feats :=
    match rule.maskLayerId with
    | some maskId =>
      if layer.kind = .points then
        let u := polygon_union_for_aoi layers maskId aoi
        let pts := feats.filterMap (fun f =>
          match f with | .point p => some p | _ => none)
        (maskFilterPoints u rule.maskMode pts).map .point
      else feats
    | none => feats
  (featsBefore, feats)

/-- Embedding of `agent/router.py::_apply_highlight_rule`.  The zero-match branches
return plain messages (their long help texts are abbreviated to their
leading sentence; no claim concerns their wording); the match branch builds
the `Highlight` through the checked dataclass constructor. -/
def apply_highlight_rule (layers : LayerBundle) (aoi : BBox)
    (routing : ScenarioRouting) (rule : ScenarioHighlightRule) :
    Except PyError AgentResponse :=
  match layers.get rule.layerId with
  | none =>
    Except.ok { message := "I could not find layer " ++ rule.layerId ++ "." }
  | some layer =>
    let fb := highlight_rule_feats layers aoi rule layer
    let featsBefore := fb.1
    let feats := fb.2
    let idsAll := (feats.map Feature.fid).filter (fun i => i ≠ "")
    let maxFeatures := if rule.maxFeatures = 0 then 500 else rule.maxFeatures
    let ids := idsAll.take maxFeatures
    if ids = [] then
      if featsBefore = [] ∧ (layer.kind = .lines ∨ layer.kind = .polygons) then
        Except.ok { message :=
          "I can not highlight anything yet because " ++ layer.title ++
            " has no decoded features at the current zoom." }
      else if rule.props.isSome then
        if featsBefore ≠ [] then
          Except.ok { message :=
            "I can see " ++ toString featsBefore.length ++ " " ++
              layer.title ++
              " features in the current view, but none match your filter." }
        else
          Except.ok { message :=
            "I could not find any " ++ layer.title ++
              " matching your request in the current map view." }
      else
        Except.ok { message :=
          "I could not find anything matching that request in your current map view." }
    else
      let title := rule.title.getD ("Highlighted (" ++ layer.title ++ ")")
      let clippedNote :=
        if ids.length < idsAll.length then
          "matched " ++ toString idsAll.length ++ ", rendering " ++
            toString ids.length ++ " due to budget."
        else
          "matched " ++ toString idsAll.length ++ ", rendering " ++
            toString ids.length ++ "."
      let msg :=
        if rule.maskLayerId.isSome ∧ rule.maskMode = "IN_MASK" then
          layer.title ++ " overlapping " ++ routing.maskLabel ++ ": " ++
            clippedNote
        else if rule.maskLayerId.isSome ∧ rule.maskMode = "OUTSIDE_MASK" then
          layer.title ++ " outside " ++ routing.maskLabel ++ ": " ++
            clippedNote
        else layer.title ++ ": " ++ clippedNote
      (mkHighlight router_highlight_kwargs
          ⟨layer.id, ids, some title⟩).map
        (fun hl =>
          { message := msg
            highlight := some hl
            highlights := some [hl]
            focus_map := layer.kind == .points })

/-! ## Projected metric CRS and distances

`pyproj`'s EPSG:4326 → EPSG:3857 transform and shapely's Euclidean
distances are real-valued; they are embedded with exact real arithmetic
(Web-Mercator forward formulas, Euclidean metric). -/

noncomputable section

/-- WGS84 / Web-Mercator earth radius (meters). -/
def mercR : ℝ := 6378137

/-- EPSG:4326 → EPSG:3857 (`transformer_4326_to_3857().transform`). -/
def proj3857 (c : Coord) : ℝ × ℝ :=
  (mercR * ((c.1 : ℝ) * Real.pi / 180),
   mercR * Real.log (Real.tan (Real.pi / 4 + ((c.2 : ℝ) * Real.pi / 180) / 2)))

/-- Euclidean distance in the projected plane. -/
def euclid (p q : ℝ × ℝ) : ℝ :=
  Real.sqrt ((p.1 - q.1) ^ 2 + (p.2 - q.2) ^ 2)

/-- The point of segment `[a,b]` at parameter `t`. -/
def segPoint (a b : ℝ × ℝ) (t : ℝ) : ℝ × ℝ :=
  (a.1 + t * (b.1 - a.1), a.2 + t * (b.2 - a.2))

/-- shapely point-to-segment distance: infimum of distances to segment
points. -/
def distPointSeg (p a b : ℝ × ℝ) : ℝ :=
  sInf {d : ℝ | ∃ t ∈ Set.Icc (0 : ℝ) 1, d = euclid p (segPoint a b t)}

/-- Minimum of a list of reals (`none` on the empty list, matching
Python's `min(..., default=inf)` sentinel). -/
def listMinR (l : List ℝ) : Option ℝ :=
  l.foldr (fun a m => match m with | none => some a | some b => some (min a b))
    none

/-- shapely `LineString.distance(Point)`: the least segment distance. -/
def lineStringDistToPoint (coords : List (ℝ × ℝ)) (p : ℝ × ℝ) : ℝ :=
  ((listMinR ((lineSegments' coords).map
      (fun s => distPointSeg p s.1 s.2)))).getD 0
where
  /-- Consecutive-vertex segments of a projected line string. -/
  lineSegments' (coords : List (ℝ × ℝ)) : List ((ℝ × ℝ) × (ℝ × ℝ)) :=
    coords.zip coords.tail

end

/-! ## Escape-roads route (`agent/router.py::_escape_roads_for_flooded_places`) -/

/-- Python `needle in hay` substring test. -/
def strContains (hay needle : String) : Bool :=
  decide (needle.toList <:+: hay.toList)

/-- The road-candidate filter (router lines 307–311): line features with at
least two coordinates and a truthy id. -/
def escapeRoadCandidates (roadsLayer : Layer) : List LineFeature :=
  (lineFeats roadsLayer).filter
    (fun r => decide (2 ≤ r.coords.length) && r.id ≠ "")

/-- The dry filter (router lines 312–320): candidates whose line string
does not intersect the flood union. -/
def escapeDryCandidates (floodUnion : PolyUnion)
    (cands : List LineFeature) : List LineFeature :=
  cands.filter (fun r => ¬ lineIntersectsUnion floodUnion r.coords)

/-- Router line 321: `use_candidates = dry_candidates if dry_candidates
else road_candidates` — when every candidate intersects the flood union the
route falls back to scoring all of them. -/
def escapeUseCandidates (floodUnion : PolyUnion)
    (cands : List LineFeature) : List LineFeature :=
  let dry := escapeDryCandidates floodUnion cands
  if dry = [] then cands else dry

noncomputable section

open Classical in
/-- Sort key of the scored escape roads: `(score, id)` ascending
(router line 332). -/
def escapeScoreLe (x y : ℝ × LineFeature) : Bool :=
  decide (x.1 < y.1 ∨ (x.1 = y.1 ∧ x.2.id ≤ y.2.id))

/-- Router lines 323–331: score every use-candidate by the least projected
distance to any flooded point; a candidate is kept iff that minimum exists
(`d != inf` — i.e. the flooded list is non-empty). -/
def escapeScored (floodedM : List (ℝ × ℝ)) (use : List LineFeature) :
    List (ℝ × LineFeature) :=
  use.filterMap (fun r =>
    (listMinR (floodedM.map
        (fun p => lineStringDistToPoint (r.coords.map proj3857) p))).map
      (fun d => (d, r)))

/-- Router lines 332–335: the ranked escape-road id list (`roads_ids_all`)
before the 300-feature budget. -/
def escapeRoadIdsAll (floodUnion : PolyUnion) (floodedM : List (ℝ × ℝ))
    (cands : List LineFeature) : List String :=
  ((insertionSortBy escapeScoreLe
      (escapeScored floodedM (escapeUseCandidates floodUnion cands))).map
    (fun x => x.2.id))

/-- Router line 335: `roads_ids = roads_ids_all[:300]` — the escape set the
emitted highlight would carry. -/
def escapeRoadIds (floodUnion : PolyUnion) (floodedM : List (ℝ × ℝ))
    (cands : List LineFeature) : List String :=
  (escapeRoadIdsAll floodUnion floodedM cands).take 300

/-- Embedding of `agent/router.py::_escape_roads_for_flooded_places` (whole route).
The two `Highlight(...)` constructions at the end pass `mode="prompt"` and
are embedded through the checked dataclass constructor. -/
def escape_roads_for_flooded_places (layers : LayerBundle) (aoi : BBox)
    (routing : ScenarioRouting) : Except PyError AgentResponse :=
  match layers.get routing.primaryPointsLayerId with
  | none => Except.ok { message := "This scenario has no configured places layer." }
  | some ptsLayer =>
    if ptsLayer.kind ≠ .points then
      Except.ok { message := "This scenario has no configured places layer." }
    else
      match (layers.layers.find? (fun l =>
          l.kind == .lines && strContains l.id "road")).orElse
          (fun _ => layers.layers.find? (fun l => l.kind == .lines)) with
      | none =>
        Except.ok { message := "This scenario has no road layer to highlight." }
      | some roadsLayer =>
        match routing.maskPolygonsLayerId with
        | none =>
          Except.ok { message := "This scenario has no flood mask configured." }
        | some maskId =>
          let floodUnion := polygon_union_for_aoi layers maskId aoi
          let floodedPoints :=
            (pointFeats ptsLayer).filter (fun p => is_point_in_union p floodUnion)
          if floodedPoints = [] then
            Except.ok { message :=
              "Flooded places: matched 0, rendering 0. No flooded places are visible in the current map view." }
          else
            let floodedIdsAll := (floodedPoints.map (fun p => p.id)).filter (· ≠ "")
            let floodedIds := floodedIdsAll.take 500
            if floodedIds = [] then
              Except.ok { message :=
                "I could not resolve flooded place IDs in this view." }
            else
              let floodedM := floodedPoints.map (fun p => proj3857 (p.lon, p.lat))
              let cands := escapeRoadCandidates roadsLayer
              let roadsIdsAll := escapeRoadIdsAll floodUnion floodedM cands
              let roadsIds := roadsIdsAll.take 300
              (mkHighlight router_highlight_kwargs
                  ⟨ptsLayer.id, floodedIds, some "Flooded places"⟩).bind
                (fun floodedH =>
                  (mkHighlight router_highlight_kwargs
                      ⟨roadsLayer.id, roadsIds, some "Escape roads"⟩).map
                    (fun roadsH =>
                      { message :=
                          "Flooded places: matched " ++
                            toString floodedIdsAll.length ++ ", rendering " ++
                            toString floodedIds.length ++
                            " due to budget. Escape roads: matched " ++
                            toString roadsIdsAll.length ++ ", rendering " ++
                            toString roadsIds.length ++ " due to budget."
                        highlight := some floodedH
                        highlights := some [floodedH, roadsH]
                        focus_map := false }))

/-! ## Nearest-point distance (`geo/index.py`) -/

/-- Embedding of `build_geo_index` projected point trees: per point layer, the list of
EPSG:3857 projections of its point features. -/
def build_point_geoms_3857 (bundle : LayerBundle) :
    List (String × List (ℝ × ℝ)) :=
  bundle.layers.foldl
    (fun d l =>
      if l.kind == .points then
        dictSet d l.id ((pointFeats l).map (fun f => proj3857 (f.lon, f.lat)))
      else d)
    []

/-- Embedding of `geo/index.py::GeoIndex.distance_to_nearest_point_m`: `⊤` models
`float("inf")`; otherwise the Euclidean distance to the point the
projected tree's `nearest` query returns (an exact nearest neighbour). -/
def distance_to_nearest_point_m
    (pointGeoms : List (String × List (ℝ × ℝ))) (pt : PointFeature)
    (layerId : String) : WithTop ℝ :=
  match dictGet pointGeoms layerId with
  | none => ⊤
  | some pts =>
    let q := proj3857 (pt.lon, pt.lat)
    match pts.argmin (fun p => euclid q p) with
    | none => ⊤
    | some p => ((euclid q p : ℝ) : WithTop ℝ)

end

/-! ## AOI slicing (`geo/index.py::GeoIndex.slice_layers{_tiled}`)

The per-layer STRtree is a bbox index: `tree.query(box)` returns the
indices of the geometries whose envelope intersects the query box (GEOS
returns them in tree order — a permutation of ascending index order; the
claims are insensitive to that permutation because the tiled result is
re-sorted by feature id, so ascending order is used here).  Both slice
caches and the tile cache are pure-value transparent.

`tiles_for_bbox` and `tile_bbox_4326` (`geo/tiles.py`) are Web-Mercator
formulas over transcendental functions; the tiled-slice contract of claim
C6 holds for *every* tile enumeration and tile-bbox function, so both are
taken as explicit arguments and the theorem quantifies over them. -/

/-- Envelope of one feature's representative geometry, as
`build_geo_index` constructs it (points: the point; lines: only features
with ≥ 2 coordinates get a geometry; polygons: only features with a
non-empty first ring). -/
def featureEnvelope (f : Feature) : Option BBox :=
  match f with
  | .point p => some ⟨p.lon, p.lat, p.lon, p.lat⟩
  | .line l => if 2 ≤ l.coords.length then ringEnvelope l.coords else none
  | .polygon p =>
    match p.rings.head? with
    | some ring => if ring ≠ [] then ringEnvelope ring else none
    | none => none

/-- The geometry envelopes of a layer, in STRtree insertion order (the
features `build_geo_index` skips get no envelope, so the geometry list can
be shorter than the feature list — the source indexes the *feature* list
with *geometry* indices, which this embedding reproduces exactly). -/
def layerGeomEnvs (l : Layer) : List BBox :=
  l.features.filterMap featureEnvelope

/-- Embedding of `geo/index.py::GeoIndex.slice_layers` (cache-transparent): per layer,
query the bbox tree and index the feature list with the returned geometry
indices. -/
def slice_layers (layers : LayerBundle) (aoi : BBox) : LayerBundle :=
  let box : BBox := ⟨aoi.min_lon, aoi.min_lat, aoi.max_lon, aoi.max_lat⟩
  ⟨layers.layers.map (fun l =>
    let envs := layerGeomEnvs l
    let idxs := (List.range envs.length).filter (fun i =>
      match envs[i]? with
      | some e => bboxIntersects e box
      | none => false)
    { l with features := idxs.filterMap (fun i => l.features[i]?) })⟩

/-- A slippy tile `(z, x, y)`. -/
abbrev Tile := ℤ × ℤ × ℤ

/-- Embedding of `sorted(tiles, key=lambda t: (t[1], t[2]))`. -/
def tileLe (a b : Tile) : Bool :=
  a.2.1 < b.2.1 || (a.2.1 == b.2.1 && a.2.2 ≤ b.2.2)

/-- Embedding of `bucket.setdefault(str(fid), f)`: insert only when the key is absent
(insertion order preserved). -/
def bucketSetdefault (bkt : List (String × Feature)) (k : String)
    (f : Feature) : List (String × Feature) :=
  if bkt.any (fun kv => kv.1 == k) then bkt else bkt ++ [(k, f)]

/-- Embedding of `for f in layer.features: bucket.setdefault(str(f.id), f)`. -/
def setdefaultAll (fs : List Feature) (bkt : List (String × Feature)) :
    List (String × Feature) :=
  fs.foldl (fun bkt f => bucketSetdefault bkt f.fid f) bkt

/-- One step of the layer loop of `slice_layers_tiled`: look up (or create)
the layer's bucket, fold the sliced features into it, store it back. -/
def mergeLayerStep (acc : List (String × List (String × Feature)))
    (l : Layer) : List (String × List (String × Feature)) :=
  dictSet acc l.id (setdefaultAll l.features ((dictGet acc l.id).getD []))

/-- The inner merge of `slice_layers_tiled`: fold one tile's sliced bundle
into the per-layer buckets. -/
def mergeTileBundle (byLayer : List (String × List (String × Feature)))
    (bundle : LayerBundle) : List (String × List (String × Feature)) :=
  bundle.layers.foldl mergeLayerStep byLayer

/-- Embedding of `geo/index.py::GeoIndex.slice_layers_tiled` (cache-transparent), with
the tile enumeration (`tiles_for_bbox`) and the tile bbox function
(`tile_bbox_as_tuple` + `BBox`) as explicit arguments. -/
def slice_layers_tiled
    (tilesFor : ℤ → BBox → List Tile) (tileBBoxFn : Tile → BBox)
    (layers : LayerBundle) (aoi : BBox) (tile_zoom : ℤ) : LayerBundle :=
  let tiles := tilesFor tile_zoom aoi
  if tiles = [] then
    ⟨layers.layers.map (fun l => { l with features := [] })⟩
  else
    let tiles := insertionSortBy tileLe tiles
    let init : List (String × List (String × Feature)) :=
      layers.layers.foldl (fun d l => dictSet d l.id []) []
    let final := tiles.foldl
      (fun acc t => mergeTileBundle acc (slice_layers layers (tileBBoxFn t)))
      init
    ⟨layers.layers.map (fun base =>
      let feats := (dictGet final base.id).getD []
      let ordered :=
        (insertionSortBy strLe (feats.map (fun kv => kv.1))).filterMap
          (fun k => dictGet feats k)
      { base with features := ordered })⟩

/-- First-occurrence-wins deduplication of features by id, the
specification-side description of what the tile buckets compute. -/
def dedupByIdFirstAux (seen : List String) : List Feature → List Feature
  | [] => []
  | f :: fs =>
    if f.fid ∈ seen then dedupByIdFirstAux seen fs
    else f :: dedupByIdFirstAux (f.fid :: seen) fs

/-- First-occurrence-wins deduplication of features by id. -/
def dedupByIdFirst (fs : List Feature) : List Feature :=
  dedupByIdFirstAux [] fs

/-- Feature order used for the per-layer output: ascending feature id. -/
def featIdLe (a b : Feature) : Bool := strLe a.fid b.fid

/-- The features a sliced bundle holds for a given layer id (empty when the
layer is absent). -/
def featuresOfLayer (bundle : LayerBundle) (layerId : String) :
    List Feature :=
  match bundle.get layerId with
  | some l => l.features
  | none => []

/-- Acceptor for the error-stream shape `append* commit`. -/
def matchesErrorShape : List EventType → Bool
  | [EventType.commit] => true
  | EventType.append :: rest => matchesErrorShape rest
  | _ => false
/-- A heavy polygon (9 ring vertices) with id `"a"` — the highlighted
feature of the C1 counterexample. -/
def c1PolyA : PolygonFeature :=
  ⟨"a", [[(0, 0), (1, 0), (1, 1), (0, 1), (0, 2), (1, 2), (2, 2), (2, 0),
          (0, 0)]], []⟩
/-- A light polygon (4 ring vertices) with id `"b"` — not highlighted. -/
def c1PolyB : PolygonFeature :=
  ⟨"b", [[(0, 0), (1, 0), (0, 1), (0, 0)]], []⟩
/-- The view of a bundle claim C1's amended statement compares: the id and
feature list of every polygon layer. -/
def polygonLayerView (b : LayerBundle) : List (String × List Feature) :=
  b.layers.filterMap (fun l =>
    if l.kind == .polygons then some (l.id, l.features) else none)
/-- The S2-style mask layer: one square flood polygon. -/
def c3MaskLayer : Layer :=
  ⟨"mask", .polygons, "Flood",
   [.polygon ⟨"R", [[(0, 0), (4, 0), (4, 4), (0, 4), (0, 0)]], []⟩], []⟩
/-- The S2-style places layer: `A(1,1)`, `B(2,2)` inside the mask,
`C(9,9)` outside. -/
def c3PlacesLayer : Layer :=
  ⟨"places", .points, "Places",
   [.point ⟨"A", 1, 1, []⟩, .point ⟨"B", 2, 2, []⟩,
    .point ⟨"C", 9, 9, []⟩], []⟩
/-- The S2-style bundle. -/
def c3Bundle : LayerBundle := ⟨[c3MaskLayer, c3PlacesLayer]⟩
/-- The S2-style AOI `(-1,-1,5,5)`. -/
def c3Aoi : BBox := ⟨-1, -1, 5, 5⟩
/-- The S2 routing configuration. -/
def c3Routing : ScenarioRouting :=
  { primaryPointsLayerId := "places"
    maskPolygonsLayerId := some "mask"
    pointLabelSingular := "place"
    pointLabelPlural := "places"
    maskLabel := "water" }
/-- The S2 highlight rule (`show flooded places`). -/
def c3Rule : ScenarioHighlightRule :=
  { keywords := ["show flooded places"]
    layerId := "places"
    title := some "Flooded"
    maskLayerId := some "mask"
    maskMode := "IN_MASK" }
/-- The C4 flood polygon: the square `(0,0)–(4,4)`. -/
def c4Union : PolyUnion := [[(0, 0), (4, 0), (4, 4), (0, 4), (0, 0)]]
/-- A road crossing the flood square. -/
def c4Road : LineFeature := ⟨"road1", [(-1, 2), (5, 2)], []⟩
/-- A road far away from the flood square. -/
def c4DryRoad : LineFeature := ⟨"road2", [(10, 10), (12, 10)], []⟩
/-- One flooded place, projected. -/
noncomputable def c4FloodedM : List (ℝ × ℝ) := [proj3857 (1, 1)]
/-- C6 witness layer: two points landing in two different tiles. -/
def c6Bundle : LayerBundle :=
  ⟨[⟨"pts", .points, "Pts",
     [.point ⟨"p1", 0, 0, []⟩, .point ⟨"p2", 2, 0, []⟩], []⟩]⟩
/-- C6 witness tile enumeration: two fixed tiles. -/
def c6TilesFor : ℤ → BBox → List Tile := fun _ _ => [(1, 0, 0), (1, 1, 0)]
/-- C6 witness tile-bbox function. -/
def c6TileBBox : Tile → BBox := fun t =>
  if t.2.1 = 0 then ⟨0, 0, 1, 1⟩ else ⟨2, 0, 3, 1⟩

/-! # Theorems settling the claims -/

theorem mem_insertLe {α : Type} (le : α → α → Bool) (x a : α) (l : List α) :
    a ∈ insertLe le x l ↔ a = x ∨ a ∈ l := by
  induction l with
  | nil => simp [insertLe]
  | cons y ys ih =>
    simp only [insertLe]
    by_cases h : le x y = true
    · simp [h]
    · simp only [h]
      simp [ih]
      tauto

theorem mem_insertionSortBy {α : Type} (le : α → α → Bool) (a : α)
    (l : List α) : a ∈ insertionSortBy le l ↔ a ∈ l := by
  induction l with
  | nil => simp [insertionSortBy]
  | cons x xs ih =>
    simp only [insertionSortBy, mem_insertLe]
    simp [ih]



/-- C7: For every input LayerBundle and any LOD parameters (including any
behaviour of the shapely-backed simplification/clustering primitives), the
bundle returned by `apply_lod` has exactly the same layer ids in exactly
the same order as the input, with each layer's kind, title, and style
unchanged; only the per-layer feature lists differ. -/
theorem C7_apply_lod_layer_skeleton_preserved
    (simpLines : List LineFeature → ℚ → List LineFeature)
    (simpPolys : List PolygonFeature → ℚ → List PolygonFeature)
    (clusterPts : List PointFeature → ℚ → List ClusterMarker)
    (layers : LayerBundle) (view_zoom : ℚ)
    (highlight_layer_id : Option String)
    (highlight_feature_ids : Option (List String))
    (cluster_points_layer_id : String) (budgets : Option LodBudgets) :
    ((apply_lod simpLines simpPolys clusterPts layers view_zoom
        highlight_layer_id highlight_feature_ids cluster_points_layer_id
        budgets).1).layers.map (fun l => (l.id, l.kind, l.title, l.style)) =
      layers.layers.map (fun l => (l.id, l.kind, l.title, l.style)) := by
  simp only [apply_lod, List.map_map]
  apply List.map_congr_left
  intro l _
  obtain ⟨lid, lkind, ltitle, lfeats, lstyle⟩ := l
  cases lkind <;> simp

/-- C8 counterexample: the claim says the applied candidate limit *equals*
`min(safety, policyMaxCandidates, hardCap)`, but the code clamps each step
with `max(1, ...)`; a configured `maxCandidatesByZoom` value of `0` yields
an effective limit of `1`, not `0`. -/
theorem C8_counterexample :
    ¬ (∀ (kind : GeometryKind) (zoom : ℚ) (mc : Option ℤ),
        (kind = .lines ∨ kind = .polygons) →
        effective_cand_limit kind zoom mc =
          min (safety_limit kind zoom)
            (min (mc.getD (safety_limit kind zoom))
              (if kind = .lines then 9000 else 5000))) := by
  intro h
  have h0 := h .lines 8 (some 0) (Or.inl rfl)
  simp only [effective_cand_limit, safety_limit, Option.getD_some] at h0
  norm_num at h0

/-- C8 (amended): for every GeoParquet line or polygon layer query the
applied candidate limit equals `min(safety, policyMaxCandidates?, hardCap)`
*clamped below at 1* (the clamp only matters when the configured policy
value is < 1), with the safety cap 20 000/60 000/200 000 for lines and
10 000/30 000/100 000 for polygons at z ≤ 7.5, z ≤ 9.0, z > 9.0, and the
hard cap 9 000 for lines and 5 000 for polygons. -/
theorem C8_amended (kind : GeometryKind) (zoom : ℚ) (mc : ℤ)
    (h : kind = .lines ∨ kind = .polygons) :
    effective_cand_limit kind zoom (some mc) =
      max 1 (min (safety_limit kind zoom)
        (min mc (if kind = .lines then 9000 else 5000))) ∧
    effective_cand_limit kind zoom none =
      min (safety_limit kind zoom) (if kind = .lines then 9000 else 5000) ∧
    safety_limit kind zoom =
      (if zoom ≤ (15 : ℚ) / 2 then (if kind = .lines then 20000 else 10000)
       else if zoom ≤ 9 then (if kind = .lines then 60000 else 30000)
       else (if kind = .lines then 200000 else 100000)) := by
  rcases h with h | h <;> subst h <;>
    simp only [effective_cand_limit, safety_limit] <;>
    split_ifs <;> simp_all <;> omega

/-- C8 amended, witness instance at `kind = lines`, `zoom = 8`,
`maxCandidates = 5`. -/
theorem C8_amended_witness :
    effective_cand_limit .lines 8 (some 5) =
      max 1 (min (safety_limit .lines 8) (min 5 9000)) ∧
    effective_cand_limit .lines 8 none =
      min (safety_limit .lines 8) 9000 ∧
    safety_limit .lines 8 =
      (if (8 : ℚ) ≤ (15 : ℚ) / 2 then 20000
       else if (8 : ℚ) ≤ 9 then 60000 else 200000) := by
  have h := C8_amended .lines 8 5 (Or.inl rfl)
  refine ⟨h.1, h.2.1, ?_⟩
  have h2 := h.2.2
  simpa using h2

/-- C5 counterexample: the claim says the base row id is kept (unsuffixed)
for part 0 of a multi-geometry row, but `decode_line_rows` (and
`decode_polygon_rows`) suffix *every* part, including part 0: a
MultiLineString row with id `"7"` and one part decodes to a feature with
id `"7:0"`, not `"7"`. -/
theorem C5_counterexample :
    ¬ (∀ (fid : String) (coords : List Coord) (name fclass : Option String),
        2 ≤ coords.length →
        ∃ f ∈ decode_line_rows
            [⟨fid, some (.multiLineString [coords]), name, fclass⟩],
          f.id = fid) := by
  intro h
  obtain ⟨f, hmem, hid⟩ :=
    h "7" [(0, 0), (1, 1)] none none (by decide)
  simp [decode_line_rows, decodeLineParts, decodeProps] at hmem
  rw [hmem] at hid
  exact absurd hid (by decide)

/-- Ids produced by the MultiLineString part loop, starting at part index
`i`. -/
theorem decodeLineParts_ids (fid : String) (props : Props) (i : ℕ)
    (parts : List (List Coord)) :
    (decodeLineParts fid props i parts).map (fun f => f.id) =
      ((List.range' i parts.length).zip parts).filterMap
        (fun ic =>
          if 2 ≤ ic.2.length then some (fid ++ ":" ++ toString ic.1)
          else none) := by
  induction parts generalizing i with
  | nil => simp [decodeLineParts]
  | cons part rest ih =>
    simp only [decodeLineParts, List.length_cons, List.range'_succ,
      List.zip_cons_cons, List.filterMap_cons, List.map_append]
    by_cases h : 2 ≤ part.length
    · simp only [if_pos h]
      simp [h, ih]
    · simp [h, ih]

/-- Ids produced by the MultiPolygon part loop, starting at part index
`i`. -/
theorem decodePolyParts_ids (fid : String) (props : Props) (i : ℕ)
    (parts : List (List Coord)) :
    (decodePolyParts fid props i parts).map (fun f => f.id) =
      ((List.range' i parts.length).zip parts).filterMap
        (fun ic =>
          if 4 ≤ ic.2.length then some (fid ++ ":" ++ toString ic.1)
          else none) := by
  induction parts generalizing i with
  | nil => simp [decodePolyParts]
  | cons part rest ih =>
    simp only [decodePolyParts, List.length_cons, List.range'_succ,
      List.zip_cons_cons, List.filterMap_cons, List.map_append]
    by_cases h : 4 ≤ part.length
    · simp [polyToFeature, h, ih]
    · simp [polyToFeature, h, ih]

/-- C5 (amended): a single-geometry row yields one feature whose id equals
the base row id, and a multi-geometry row is exploded into one feature per
(valid) part with id `{base_id}:{part_index}` for *every* part — part 0
included, so the base id is not kept unsuffixed. -/
theorem C5_amended (fid : String) (name fclass : Option String) :
    (∀ coords : List Coord, 2 ≤ coords.length →
      decode_line_rows [⟨fid, some (.lineString coords), name, fclass⟩] =
        [⟨fid, coords, decodeProps name fclass⟩]) ∧
    (∀ parts : List (List Coord),
      (decode_line_rows
          [⟨fid, some (.multiLineString parts), name, fclass⟩]).map
        (fun f => f.id) =
        ((List.range parts.length).zip parts).filterMap
          (fun ic =>
            if 2 ≤ ic.2.length then some (fid ++ ":" ++ toString ic.1)
            else none)) ∧
    (∀ exterior : List Coord, 4 ≤ exterior.length →
      decode_polygon_rows [⟨fid, some (.polygon exterior), name, fclass⟩] =
        [⟨fid, [exterior], decodeProps name fclass⟩]) ∧
    (∀ parts : List (List Coord),
      (decode_polygon_rows
          [⟨fid, some (.multiPolygon parts), name, fclass⟩]).map
        (fun f => f.id) =
        ((List.range parts.length).zip parts).filterMap
          (fun ic =>
            if 4 ≤ ic.2.length then some (fid ++ ":" ++ toString ic.1)
            else none)) := by
  refine ⟨?_, ?_, ?_, ?_⟩
  · intro coords hlen
    simp [decode_line_rows, hlen]
  · intro parts
    simp only [decode_line_rows, List.flatMap_cons, List.flatMap_nil,
      List.append_nil, List.range_eq_range']
    exact decodeLineParts_ids fid (decodeProps name fclass) 0 parts
  · intro exterior hlen
    simp [decode_polygon_rows, polyToFeature, hlen]
  · intro parts
    simp only [decode_polygon_rows, List.flatMap_cons, List.flatMap_nil,
      List.append_nil, List.range_eq_range']
    exact decodePolyParts_ids fid (decodeProps name fclass) 0 parts

/-- C5 amended, witness instance: one single-geometry row keeps its id
`"7"`; a two-part MultiLineString row `"9"` yields ids `"9:0"`, `"9:1"`. -/
theorem C5_amended_witness :
    decode_line_rows [⟨"7", some (.lineString [(0, 0), (1, 1)]), none, none⟩] =
      [⟨"7", [(0, 0), (1, 1)], []⟩] ∧
    (decode_line_rows
        [⟨"9", some (.multiLineString [[(0, 0), (1, 1)], [(2, 2), (3, 3)]]),
          none, none⟩]).map (fun f => f.id) = ["9:0", "9:1"] := by
  constructor
  · have h := (C5_amended "7" none none).1 [(0, 0), (1, 1)] (by decide)
    simpa [decodeProps] using h
  · have h := (C5_amended "9" none none).2.1 [[(0, 0), (1, 1)], [(2, 2), (3, 3)]]
    rw [h]
    decide

/-- C2 counterexample: a request that fails before the map payload is
built streams `append* commit` with *no* `plot_data` event (the `except`
branch of `handle_incoming_message`), so the claimed shape — one
`plot_data` in every response, error responses included — fails. -/
theorem C2_counterexample :
    ¬ C2Shape
        (handler_events [] [] ["Backend", "error:", "ValueError:", "boom"]
          .beforeMessage) := by
  decide

theorem matchesProtocol_replicate (n : ℕ) (rest : List EventType) :
    matchesProtocol (List.replicate n EventType.append ++ rest) =
      matchesProtocol rest := by
  induction n with
  | zero => rfl
  | succ n ih => simpa [List.replicate_succ, matchesProtocol] using ih

theorem matchesErrorShape_replicate (n : ℕ) (rest : List EventType) :
    matchesErrorShape (List.replicate n EventType.append ++ rest) =
      matchesErrorShape rest := by
  induction n with
  | zero => rfl
  | succ n ih => simpa [List.replicate_succ, matchesErrorShape] using ih

/-- C2 (amended): a successful response streams
`append* plot_data append* commit` with exactly one `plot_data` and one
`commit`; a response where the request fails with an error streams
`append* commit` with *no* `plot_data` event and exactly one `commit`
(`invoke_stream.py` lines 282–286). -/
theorem C2_amended (mw nw ew : List String) (fail : FailPoint) :
    (fail = .noFailure → C2Shape (handler_events mw nw ew fail)) ∧
    (fail ≠ .noFailure →
      matchesErrorShape (handler_events mw nw ew fail) = true ∧
      (handler_events mw nw ew fail).count .plotData = 0 ∧
      (handler_events mw nw ew fail).count .commit = 1) := by
  constructor
  · intro h
    subst h
    simp only [handler_events, List.map_const']
    refine ⟨?_, ?_, ?_⟩
    · rw [← List.replicate_add, matchesProtocol_replicate]
      rfl
    · simp [List.count_append, List.count_replicate, List.count_cons]
    · simp [List.count_append, List.count_replicate, List.count_cons]
  · intro h
    cases fail with
    | noFailure => exact absurd rfl h
    | beforeMessage =>
      simp only [handler_events, List.map_const']
      refine ⟨?_, ?_, ?_⟩
      · rw [matchesErrorShape_replicate]
        rfl
      · simp [List.count_append, List.count_replicate, List.count_cons]
      · simp [List.count_append, List.count_replicate, List.count_cons]
    | beforeAplotData =>
      simp only [handler_events, List.map_const']
      refine ⟨?_, ?_, ?_⟩
      · rw [← List.replicate_add, matchesErrorShape_replicate]
        rfl
      · simp [List.count_append, List.count_replicate, List.count_cons]
      · simp [List.count_append, List.count_replicate, List.count_cons]

/-- C2 amended, witness instances: a successful two-word response has the
claimed shape; a failing response has the error shape with no
`plot_data`. -/
theorem C2_amended_witness :
    C2Shape (handler_events ["I", "found"] [] [] .noFailure) ∧
    (matchesErrorShape
        (handler_events ["I", "found"] [] ["Backend", "error"]
          .beforeAplotData) = true ∧
      (handler_events ["I", "found"] [] ["Backend", "error"]
          .beforeAplotData).count .plotData = 0 ∧
      (handler_events ["I", "found"] [] ["Backend", "error"]
          .beforeAplotData).count .commit = 1) :=
  ⟨(C2_amended ["I", "found"] [] [] .noFailure).1 rfl,
   (C2_amended ["I", "found"] [] ["Backend", "error"] .beforeAplotData).2
     (by decide)⟩

/-- C1 counterexample: the polygon hard-cap fallback
(`_cap_polys_to_vertex_budget`) takes no keep set and drops heaviest-first,
so a kept (highlighted) feature can be dropped while a non-kept feature of
the same layer survives: with keep set `{"a"}` and budget 4, the kept
9-vertex polygon `"a"` is dropped and the non-kept 4-vertex polygon `"b"`
survives. -/
theorem C1_counterexample :
    ¬ (∀ (polys : List PolygonFeature) (budget : ℕ) (keep : List String),
        ∀ f ∈ polys, f.id ∈ keep →
          f ∉ cap_polys_to_vertex_budget polys budget →
          ∀ g ∈ polys, g.id ∉ keep →
            g ∉ cap_polys_to_vertex_budget polys budget) := by
  intro h
  exact h [c1PolyA, c1PolyB] 4 ["a"] c1PolyA (by decide) (by decide)
    (by decide) c1PolyB (by decide) (by decide) (by decide)

theorem mem_popFirstNonKept (keep : List String) (xs rest : List LineFeature)
    (h : popFirstNonKept keep xs = some rest) :
    ∀ x ∈ rest, x ∈ xs := by
  induction xs generalizing rest with
  | nil => simp [popFirstNonKept] at h
  | cons y ys ih =>
    simp only [popFirstNonKept] at h
    by_cases hy : y.id ∈ keep
    · rw [if_pos hy] at h
      cases hrec : popFirstNonKept keep ys with
      | none => rw [hrec] at h; simp at h
      | some rest' =>
        rw [hrec] at h
        simp only [Option.map_some'] at h
        cases h
        intro x hx
        rcases List.mem_cons.mp hx with h | h
        · exact h ▸ List.mem_cons_self _ _
        · exact List.mem_cons_of_mem _ (ih rest' hrec x h)
    · rw [if_neg hy] at h
      cases h
      intro x hx
      exact List.mem_cons_of_mem _ hx

theorem mem_popPreferNonKept (keep : List String) (out : List LineFeature) :
    ∀ x ∈ popPreferNonKept keep out, x ∈ out := by
  cases out with
  | nil => simp [popPreferNonKept]
  | cons y ys =>
    simp only [popPreferNonKept]
    by_cases hy : y.id ∈ keep
    · rw [if_pos hy]
      cases hrec : popFirstNonKept keep ys with
      | none =>
        intro x hx
        exact List.mem_cons_of_mem _ hx
      | some rest =>
        intro x hx
        rcases List.mem_cons.mp hx with h | h
        · exact h ▸ List.mem_cons_self _ _
        · exact List.mem_cons_of_mem _ (mem_popFirstNonKept keep ys rest hrec x h)
    · rw [if_neg hy]
      intro x hx
      exact List.mem_cons_of_mem _ hx

theorem mem_lineCapDropLoop (keep : List String) (maxV fuel : ℕ)
    (out : List LineFeature) :
    ∀ x ∈ lineCapDropLoop keep maxV fuel out, x ∈ out := by
  induction fuel generalizing out with
  | zero => simp [lineCapDropLoop]
  | succ fuel ih =>
    simp only [lineCapDropLoop]
    by_cases hcond : out = [] ∨ count_line_vertices out ≤ maxV
    · rw [if_pos hcond]
      intro x hx
      exact hx
    · rw [if_neg hcond]
      intro x hx
      exact mem_popPreferNonKept keep out x (ih (popPreferNonKept keep out) x hx)

theorem popFirstNonKept_keeps_kept_ids (keep : List String) (k : String)
    (hk : k ∈ keep) (xs rest : List LineFeature)
    (h : popFirstNonKept keep xs = some rest)
    (hmem : k ∈ xs.map (fun l => l.id)) : k ∈ rest.map (fun l => l.id) := by
  induction xs generalizing rest with
  | nil => simp [popFirstNonKept] at h
  | cons y ys ih =>
    simp only [popFirstNonKept] at h
    by_cases hy : y.id ∈ keep
    · rw [if_pos hy] at h
      cases hrec : popFirstNonKept keep ys with
      | none => rw [hrec] at h; simp at h
      | some rest' =>
        rw [hrec] at h
        simp only [Option.map_some'] at h
        cases h
        rcases List.mem_map.mp hmem with ⟨x, hx, hxid⟩
        rcases List.mem_cons.mp hx with hh | hh
        · subst hh
          exact List.mem_map.mpr ⟨x, List.mem_cons_self _ _, hxid⟩
        · have := ih rest' hrec (List.mem_map.mpr ⟨x, hh, hxid⟩)
          simp only [List.map_cons, List.mem_cons]
          exact Or.inr this
    · rw [if_neg hy] at h
      cases h
      rcases List.mem_map.mp hmem with ⟨x, hx, hxid⟩
      rcases List.mem_cons.mp hx with hh | hh
      · subst hh
        exact absurd (hxid ▸ hk) hy
      · exact List.mem_map.mpr ⟨x, hh, hxid⟩

theorem popFirstNonKept_none_all_kept (keep : List String)
    (xs : List LineFeature) (h : popFirstNonKept keep xs = none) :
    ∀ x ∈ xs, x.id ∈ keep := by
  induction xs with
  | nil => simp
  | cons a as iha =>
    simp only [popFirstNonKept] at h
    by_cases ha : a.id ∈ keep
    · rw [if_pos ha] at h
      cases hrec : popFirstNonKept keep as with
      | none =>
        intro x hx
        rcases List.mem_cons.mp hx with hxx | hxx
        · exact hxx ▸ ha
        · exact iha hrec x hxx
      | some r => rw [hrec] at h; simp at h
    · rw [if_neg ha] at h; simp at h

theorem popPreferNonKept_keeps_kept_ids (keep : List String) (k : String)
    (hk : k ∈ keep) (out : List LineFeature)
    (hex : ∃ y ∈ out, y.id ∉ keep)
    (hmem : k ∈ out.map (fun l => l.id)) :
    k ∈ (popPreferNonKept keep out).map (fun l => l.id) := by
  cases out with
  | nil => simp at hmem
  | cons y ys =>
    simp only [popPreferNonKept]
    by_cases hy : y.id ∈ keep
    · rw [if_pos hy]
      cases hrec : popFirstNonKept keep ys with
      | none =>
        exfalso
        obtain ⟨z, hz, hznk⟩ := hex
        rcases List.mem_cons.mp hz with hh | hh
        · exact hznk (hh ▸ hy)
        · exact hznk (popFirstNonKept_none_all_kept keep ys hrec z hh)
      | some rest =>
        rcases List.mem_map.mp hmem with ⟨x, hx, hxid⟩
        rcases List.mem_cons.mp hx with hh | hh
        · subst hh
          exact List.mem_map.mpr ⟨x, List.mem_cons_self _ _, hxid⟩
        · have := popFirstNonKept_keeps_kept_ids keep k hk ys rest hrec
            (List.mem_map.mpr ⟨x, hh, hxid⟩)
          simp only [List.map_cons, List.mem_cons]
          exact Or.inr this
    · rw [if_neg hy]
      rcases List.mem_map.mp hmem with ⟨x, hx, hxid⟩
      rcases List.mem_cons.mp hx with hh | hh
      · exact absurd ((hh ▸ hxid : y.id = k) ▸ hk) hy
      · exact List.mem_map.mpr ⟨x, hh, hxid⟩

/-- If the drop loop ever drops a kept id, every survivor is kept. -/
theorem lineCapDropLoop_kept_dropped (keep : List String) (maxV : ℕ)
    (k : String) (hk : k ∈ keep) :
    ∀ (fuel : ℕ) (out : List LineFeature),
      k ∈ out.map (fun l => l.id) →
      k ∉ (lineCapDropLoop keep maxV fuel out).map (fun l => l.id) →
      ∀ x ∈ lineCapDropLoop keep maxV fuel out, x.id ∈ keep := by
  intro fuel
  induction fuel with
  | zero =>
    intro out hin hout
    exact absurd hin (by simpa [lineCapDropLoop] using hout)
  | succ fuel ih =>
    intro out hin hout
    by_cases hcond : out = [] ∨ count_line_vertices out ≤ maxV
    · rw [lineCapDropLoop, if_pos hcond] at hout
      exact absurd hin hout
    · rw [lineCapDropLoop, if_neg hcond] at hout ⊢
      by_cases hex : ∃ y ∈ out, y.id ∉ keep
      · exact ih (popPreferNonKept keep out)
          (popPreferNonKept_keeps_kept_ids keep k hk out hex hin) hout
      · push_neg at hex
        intro x hx
        exact hex x
          (mem_popPreferNonKept keep out x
            (mem_lineCapDropLoop keep maxV fuel _ x hx))

theorem mem_map_insertionSortBy {α β : Type} (le : α → α → Bool)
    (f : α → β) (b : β) (l : List α) :
    (b ∈ (insertionSortBy le l).map f) ↔ b ∈ l.map f := by
  constructor
  · intro h
    rcases List.mem_map.mp h with ⟨x, hx, hxb⟩
    exact List.mem_map.mpr ⟨x, (mem_insertionSortBy le x l).mp hx, hxb⟩
  · intro h
    rcases List.mem_map.mp h with ⟨x, hx, hxb⟩
    exact List.mem_map.mpr ⟨x, (mem_insertionSortBy le x l).mpr hx, hxb⟩

/-- C1 (amended): in the LOD hard-cap fallback the keep-set protection
holds for *line* layers — a kept line id is dropped only when every
surviving feature is kept, so no non-kept feature outlives a dropped kept
one; for *polygon* layers the fallback takes no keep set at all and
`apply_lod`'s polygon output is entirely independent of the highlight
keep-set (heaviest polygons are dropped first regardless of
highlighting). -/
theorem C1_amended :
    (∀ (simpLines : List LineFeature → ℚ → List LineFeature)
       (simpPolys : List PolygonFeature → ℚ → List PolygonFeature)
       (clusterPts : List PointFeature → ℚ → List ClusterMarker)
       (layers : LayerBundle) (zoom : ℚ)
       (hl hl' : Option String) (hfi hfi' : Option (List String))
       (clid : String) (budgets : Option LodBudgets),
       polygonLayerView
           (apply_lod simpLines simpPolys clusterPts layers zoom hl hfi
             clid budgets).1 =
         polygonLayerView
           (apply_lod simpLines simpPolys clusterPts layers zoom hl' hfi'
             clid budgets).1) ∧
    (∀ (lines : List LineFeature) (maxV : ℕ) (keep : List String)
       (k : String),
       k ∈ keep → k ∈ lines.map (fun l => l.id) →
       k ∉ (cap_lines_to_vertex_budget lines maxV (some keep)).map
           (fun l => l.id) →
       ∀ j, j ∉ keep →
         j ∉ (cap_lines_to_vertex_budget lines maxV (some keep)).map
             (fun l => l.id)) := by
  constructor
  · intro simpLines simpPolys clusterPts layers zoom hl hl' hfi hfi' clid
      budgets
    simp only [polygonLayerView, apply_lod, List.filterMap_map]
    apply List.filterMap_congr
    intro l _
    obtain ⟨lid, lkind, ltitle, lfeats, lstyle⟩ := l
    cases lkind <;> simp
  · intro lines maxV keep k hk hkin hkout j hj
    intro hjmem
    simp only [cap_lines_to_vertex_budget, Option.getD_some] at hkout hjmem
    rw [mem_map_insertionSortBy] at hjmem hkout
    rcases List.mem_map.mp hjmem with ⟨x, hx, hxid⟩
    have hall := lineCapDropLoop_kept_dropped keep maxV k hk
      (insertionSortBy lineCapLe lines).length
      (insertionSortBy lineCapLe lines)
      (by rw [mem_map_insertionSortBy]; exact hkin) hkout
    exact hj (hxid ▸ hall x hx)

/-- C1 amended, witness instance: a polygon-layer bundle whose LOD output
is unchanged when the highlight set changes from `{"a"}` to `∅`, and a
line-layer cap instance where the kept line `"a"` is dropped (budget 2)
and the non-kept line `"b"` is indeed dropped too. -/
theorem C1_amended_witness :
    (polygonLayerView
        (apply_lod (fun l _ => l) (fun p _ => p) (fun _ _ => [])
          ⟨[⟨"polys", .polygons, "Polys", [.polygon c1PolyA], []⟩]⟩ 12
          (some "polys") (some ["a"]) "pois" none).1 =
      polygonLayerView
        (apply_lod (fun l _ => l) (fun p _ => p) (fun _ _ => [])
          ⟨[⟨"polys", .polygons, "Polys", [.polygon c1PolyA], []⟩]⟩ 12
          none none "pois" none).1) ∧
    ("b" ∉ (cap_lines_to_vertex_budget
        [⟨"a", [(0, 0), (1, 0), (2, 0), (3, 0), (4, 0), (5, 0), (6, 0),
                (7, 0), (8, 0)], []⟩,
         ⟨"b", [(0, 1), (1, 1)], []⟩] 2 (some ["a"])).map
        (fun l => l.id)) :=
  ⟨C1_amended.1 (fun l _ => l) (fun p _ => p) (fun _ _ => [])
      ⟨[⟨"polys", .polygons, "Polys", [.polygon c1PolyA], []⟩]⟩ 12
      (some "polys") none (some ["a"]) none "pois" none,
   C1_amended.2
     [⟨"a", [(0, 0), (1, 0), (2, 0), (3, 0), (4, 0), (5, 0), (6, 0),
             (7, 0), (8, 0)], []⟩,
      ⟨"b", [(0, 1), (1, 1)], []⟩] 2 ["a"] "a" (by decide) (by decide)
     (by decide) "b" (by decide)⟩

/-- C10: point-in-mask membership is strict.  For a point lying exactly on
the boundary of the mask polygon union (on the boundary of one member ring
and strictly outside every other member), `is_point_in_union` returns
false, so the point is counted as outside by the count-in-mask route
(member of `out_mask`, not of `in_mask`), is excluded from `IN_MASK`
highlight-rule results, and is retained by `OUTSIDE_MASK`. -/
theorem C10_boundary_point_is_outside (u : PolyUnion) (p : PointFeature)
    (pts : List PointFeature) (r₀ : List Coord) (hr₀ : r₀ ∈ u)
    (hbd : pointOnRingBoundary r₀ (p.lon, p.lat) = true)
    (hout : ∀ r ∈ u, r ≠ r₀ → locatePoint r (p.lon, p.lat) = .outside)
    (hp : p ∈ pts) :
    is_point_in_union p u = false ∧
    p ∈ (maskInOut pts u).2 ∧ p ∉ (maskInOut pts u).1 ∧
    p ∉ maskFilterPoints u "IN_MASK" pts ∧
    p ∈ maskFilterPoints u "OUTSIDE_MASK" pts := by
  have hnotin : is_point_in_union p u = false := by
    rw [is_point_in_union]
    rw [List.any_eq_false]
    intro r hr
    by_cases hcase : r = r₀
    · subst hcase
      simp [locatePoint, hbd]
    · simp [hout r hr hcase]
  refine ⟨hnotin, ?_, ?_, ?_, ?_⟩
  · simp [maskInOut, List.mem_filter, hp, hnotin]
  · simp [maskInOut, List.mem_filter, hnotin]
  · simp [maskFilterPoints, List.mem_filter, hnotin]
  · simp [maskFilterPoints, List.mem_filter, hp, hnotin]

/-- C10 witness: the point `(1, 0)` on the bottom edge of the square mask
`[(0,0),(2,0),(2,2),(0,2)]` is outside the mask for the count route and the
highlight-rule mask filters. -/
theorem C10_boundary_point_is_outside_witness :
    is_point_in_union ⟨"P", 1, 0, []⟩
        [[(0, 0), (2, 0), (2, 2), (0, 2), (0, 0)]] = false ∧
    (⟨"P", 1, 0, []⟩ : PointFeature) ∈
      (maskInOut [⟨"P", 1, 0, []⟩]
        [[(0, 0), (2, 0), (2, 2), (0, 2), (0, 0)]]).2 ∧
    (⟨"P", 1, 0, []⟩ : PointFeature) ∉
      (maskInOut [⟨"P", 1, 0, []⟩]
        [[(0, 0), (2, 0), (2, 2), (0, 2), (0, 0)]]).1 ∧
    (⟨"P", 1, 0, []⟩ : PointFeature) ∉
      maskFilterPoints [[(0, 0), (2, 0), (2, 2), (0, 2), (0, 0)]] "IN_MASK"
        [⟨"P", 1, 0, []⟩] ∧
    (⟨"P", 1, 0, []⟩ : PointFeature) ∈
      maskFilterPoints [[(0, 0), (2, 0), (2, 2), (0, 2), (0, 0)]]
        "OUTSIDE_MASK" [⟨"P", 1, 0, []⟩] :=
  C10_boundary_point_is_outside
    [[(0, 0), (2, 0), (2, 2), (0, 2), (0, 0)]] ⟨"P", 1, 0, []⟩
    [⟨"P", 1, 0, []⟩] [(0, 0), (2, 0), (2, 2), (0, 2), (0, 0)]
    (by decide)
    (by norm_num [pointOnRingBoundary, ringEdges, closeRing, onSegment,
      orient])
    (by intro r hr hne; simp at hr; exact absurd hr hne)
    (by decide)

/-- C3: for the spec's S2 scenario — a prompt matching a highlight rule
whose mask filter selects the two flooded places — `_apply_highlight_rule`
does not return the claimed overlay: it raises `TypeError`, because the
router constructs `Highlight(..., mode="prompt")` while the `Highlight`
dataclass (`plotly/build_map.py`, and likewise `plotly/types.py`) declares
no `mode` field.  The repository's own tests construct `Highlight` *with*
`mode=` (`tests/test_invoke_stream.py`, `tests/test_plot_payload.py`), so
the missing field contradicts them: the code is the slip, the claim states
the intent. -/

theorem c3_union_eval :
    polygon_union_for_aoi c3Bundle "mask" c3Aoi =
      [[(0, 0), (4, 0), (4, 4), (0, 4), (0, 0)]] := by
  norm_num [polygon_union_for_aoi, c3Bundle, c3Aoi, c3MaskLayer,
    c3PlacesLayer, LayerBundle.get, List.find?, layerPolygonRings,
    ringEnvelope, bboxIntersects, List.filter]

theorem c3_locate_A :
    is_point_in_union ⟨"A", 1, 1, []⟩
      [[(0, 0), (4, 0), (4, 4), (0, 4), (0, 0)]] = true := by
  norm_num [is_point_in_union, locatePoint, pointOnRingBoundary,
    rayParityOdd, ringEdges, closeRing, onSegment, orient, edgeCrossesRay,
    List.filter]

theorem c3_locate_B :
    is_point_in_union ⟨"B", 2, 2, []⟩
      [[(0, 0), (4, 0), (4, 4), (0, 4), (0, 0)]] = true := by
  norm_num [is_point_in_union, locatePoint, pointOnRingBoundary,
    rayParityOdd, ringEdges, closeRing, onSegment, orient, edgeCrossesRay,
    List.filter]

theorem c3_locate_C :
    is_point_in_union ⟨"C", 9, 9, []⟩
      [[(0, 0), (4, 0), (4, 4), (0, 4), (0, 0)]] = false := by
  norm_num [is_point_in_union, locatePoint, pointOnRingBoundary,
    rayParityOdd, ringEdges, closeRing, onSegment, orient, edgeCrossesRay,
    List.filter]
  decide

theorem C3_highlight_rule_raises_type_error :
    apply_highlight_rule c3Bundle c3Aoi c3Routing c3Rule =
      Except.error (.typeError
        "Highlight.__init__() got an unexpected keyword argument") := by
  have hget : c3Bundle.get "places" = some c3PlacesLayer := by
    simp [c3Bundle, LayerBundle.get, List.find?, c3MaskLayer, c3PlacesLayer]
  rw [apply_highlight_rule]
  rw [show c3Rule.layerId = "places" from rfl, hget]
  simp only [highlight_rule_feats,
    show c3Rule.props = none from rfl,
    show c3Rule.maskLayerId = some "mask" from rfl,
    show c3Rule.maskMode = "IN_MASK" from rfl,
    c3_union_eval, maskFilterPoints]
  simp only [c3PlacesLayer, List.filterMap, List.filter, c3_locate_A,
    c3_locate_B, c3_locate_C]
  norm_num [mkHighlight, router_highlight_kwargs,
    highlight_dataclass_fields, Feature.fid, Except.map]
  simp [c3Rule, c3Routing]

theorem c4_road_intersects :
    lineIntersectsUnion c4Union c4Road.coords = true := by
  norm_num [lineIntersectsUnion, c4Union, c4Road, lineIntersectsRingPoly,
    lineSegments, segmentsIntersect, locatePoint, pointOnRingBoundary,
    rayParityOdd, ringEdges, closeRing, onSegment, orient, edgeCrossesRay,
    List.filter]

theorem c4_dry_road_does_not_intersect :
    lineIntersectsUnion c4Union c4DryRoad.coords = false := by
  norm_num [lineIntersectsUnion, c4Union, c4DryRoad, lineIntersectsRingPoly,
    lineSegments, segmentsIntersect, locatePoint, pointOnRingBoundary,
    rayParityOdd, ringEdges, closeRing, onSegment, orient, edgeCrossesRay,
    List.filter]

theorem c4_escape_ids_all_flooded :
    escapeRoadIds c4Union c4FloodedM [c4Road] = ["road1"] := by
  simp only [escapeRoadIds, escapeRoadIdsAll, escapeScored,
    escapeUseCandidates, escapeDryCandidates]
  rw [show List.filter
      (fun r => decide ¬lineIntersectsUnion c4Union r.coords = true)
      [c4Road] = [] from by simp [List.filter, c4_road_intersects]]
  simp [c4FloodedM, List.filterMap, listMinR, insertionSortBy, insertLe,
    c4Road]

theorem c4_escape_ids_dry :
    escapeRoadIds c4Union c4FloodedM [c4DryRoad] = ["road2"] := by
  simp only [escapeRoadIds, escapeRoadIdsAll, escapeScored,
    escapeUseCandidates, escapeDryCandidates]
  rw [show List.filter
      (fun r => decide ¬lineIntersectsUnion c4Union r.coords = true)
      [c4DryRoad] = [c4DryRoad] from by
    simp [List.filter, c4_dry_road_does_not_intersect]]
  simp [c4FloodedM, List.filterMap, listMinR, insertionSortBy, insertLe,
    c4DryRoad]

/-- C4 counterexample: when *every* candidate road intersects the flood
union, router line 321 falls back to `road_candidates`, so an intersecting
road *does* appear in the escape set: with a single road crossing the
flood square, the escape set is exactly that road. -/
theorem C4_counterexample :
    ¬ (∀ (u : PolyUnion) (fm : List (ℝ × ℝ)) (cands : List LineFeature),
        ∀ rid ∈ escapeRoadIds u fm cands,
          ∀ r ∈ cands, r.id = rid →
            lineIntersectsUnion u r.coords = false) := by
  intro h
  have hmem : "road1" ∈ escapeRoadIds c4Union c4FloodedM [c4Road] := by
    rw [c4_escape_ids_all_flooded]; exact List.mem_singleton.mpr rfl
  have hfalse := h c4Union c4FloodedM [c4Road] "road1" hmem c4Road
    (List.mem_singleton.mpr rfl) rfl
  rw [c4_road_intersects] at hfalse
  exact absurd hfalse (by decide)

/-- C4 (amended): whenever at least one candidate road does *not*
intersect the flood union, every id in the escape set belongs to a
non-intersecting road (the dry filter is only bypassed by the
all-candidates-flooded fallback of router line 321). -/
theorem C4_amended (u : PolyUnion) (fm : List (ℝ × ℝ))
    (cands : List LineFeature) (hdry : escapeDryCandidates u cands ≠ []) :
    ∀ rid ∈ escapeRoadIds u fm cands,
      ∃ r ∈ cands, r.id = rid ∧ lineIntersectsUnion u r.coords = false := by
  intro rid hmem
  have hmem2 : rid ∈ escapeRoadIdsAll u fm cands :=
    List.mem_of_mem_take hmem
  rw [escapeRoadIdsAll] at hmem2
  rcases List.mem_map.mp hmem2 with ⟨x, hx, hxid⟩
  rw [mem_insertionSortBy] at hx
  rcases List.mem_filterMap.mp hx with ⟨r, hr, hsome⟩
  rcases Option.map_eq_some'.mp hsome with ⟨d, _, hdr⟩
  have hrx : r = x.2 := congrArg Prod.snd hdr
  rw [escapeUseCandidates, if_neg hdry] at hr
  rcases List.mem_filter.mp hr with ⟨hrc, hrf⟩
  refine ⟨r, hrc, by rw [hrx]; exact hxid, ?_⟩
  simpa using of_decide_eq_true hrf

/-- C4 amended, witness instance: with the dry road `"road2"` among the
candidates the dry filter is non-empty, and the escape id `"road2"`
belongs to a road not intersecting the flood union. -/
theorem C4_amended_witness :
    ∃ r ∈ [c4DryRoad], r.id = "road2" ∧
      lineIntersectsUnion c4Union r.coords = false :=
  C4_amended c4Union c4FloodedM [c4DryRoad]
    (by simp [escapeDryCandidates, List.filter,
      c4_dry_road_does_not_intersect])
    "road2" (by rw [c4_escape_ids_dry]; exact List.mem_singleton.mpr rfl)

/-- C9: `distance_to_nearest_point_m` returns `⊤` (`float("inf")`) when
the target point layer is absent from the built index or holds no points;
otherwise it returns the Euclidean distance, in the projected metric CRS,
from the query point to a nearest point of the target layer (a member
point minimising the Euclidean distance). -/
theorem C9_distance_to_nearest_point (bundle : LayerBundle)
    (pt : PointFeature) (lid : String) :
    ((dictGet (build_point_geoms_3857 bundle) lid = none ∨
        dictGet (build_point_geoms_3857 bundle) lid = some []) →
      distance_to_nearest_point_m (build_point_geoms_3857 bundle) pt lid =
        ⊤) ∧
    (∀ pts, dictGet (build_point_geoms_3857 bundle) lid = some pts →
      pts ≠ [] →
      ∃ p ∈ pts,
        distance_to_nearest_point_m (build_point_geoms_3857 bundle) pt lid =
          ((euclid (proj3857 (pt.lon, pt.lat)) p : ℝ) : WithTop ℝ) ∧
        ∀ q ∈ pts,
          euclid (proj3857 (pt.lon, pt.lat)) p ≤
            euclid (proj3857 (pt.lon, pt.lat)) q) := by
  constructor
  · intro h
    rcases h with h | h <;> simp [distance_to_nearest_point_m, h,
      List.argmin_nil]
  · intro pts hsome hne
    cases hm : pts.argmin (fun p => euclid (proj3857 (pt.lon, pt.lat)) p) with
    | none => exact absurd (List.argmin_eq_none.mp hm) hne
    | some p =>
      refine ⟨p, List.argmin_mem hm, ?_, ?_⟩
      · simp [distance_to_nearest_point_m, hsome, hm]
      · intro q hq
        exact List.le_of_mem_argmin hq hm

/-- C9 witness: an empty point layer gives `⊤`; a singleton point layer
gives the Euclidean distance to its unique (hence nearest) point. -/
theorem C9_distance_to_nearest_point_witness :
    distance_to_nearest_point_m
        (build_point_geoms_3857 ⟨[⟨"E", .points, "Empty", [], []⟩]⟩)
        ⟨"q", 1, 1, []⟩ "E" = ⊤ ∧
    ∃ p ∈ [proj3857 (0, 0)],
      distance_to_nearest_point_m
          (build_point_geoms_3857
            ⟨[⟨"L", .points, "Pts", [.point ⟨"p1", 0, 0, []⟩], []⟩]⟩)
          ⟨"q", 1, 1, []⟩ "L" =
        ((euclid (proj3857 (1, 1)) p : ℝ) : WithTop ℝ) ∧
      ∀ r ∈ [proj3857 (0, 0)],
        euclid (proj3857 (1, 1)) p ≤ euclid (proj3857 (1, 1)) r :=
  ⟨(C9_distance_to_nearest_point ⟨[⟨"E", .points, "Empty", [], []⟩]⟩
      ⟨"q", 1, 1, []⟩ "E").1
    (Or.inr (by simp [build_point_geoms_3857, pointFeats, dictSet, dictGet,
      List.find?])),
   (C9_distance_to_nearest_point
      ⟨[⟨"L", .points, "Pts", [.point ⟨"p1", 0, 0, []⟩], []⟩]⟩
      ⟨"q", 1, 1, []⟩ "L").2 [proj3857 (0, 0)]
    (by simp [build_point_geoms_3857, pointFeats, dictSet, dictGet,
      List.find?, List.filterMap])
    (by simp)⟩


/-! ### Generic facts about the stable sort and the dict embedding -/

theorem perm_insertLe {α : Type} (le : α → α → Bool) (x : α) (l : List α) :
    List.Perm (insertLe le x l) (x :: l) := by
  induction l with
  | nil => simp [insertLe]
  | cons y ys ih =>
    simp only [insertLe]
    by_cases h : le x y = true
    · simp [h]
    · simp only [h, if_false]
      exact (ih.cons y).trans (List.Perm.swap x y ys)

theorem perm_insertionSortBy {α : Type} (le : α → α → Bool) (l : List α) :
    List.Perm (insertionSortBy le l) l := by
  induction l with
  | nil => simp [insertionSortBy]
  | cons x xs ih =>
    exact (perm_insertLe le x (insertionSortBy le xs)).trans (ih.cons x)

theorem pairwise_insertLe {α : Type} (le : α → α → Bool)
    (htot : ∀ a b, le a b = true ∨ le b a = true)
    (htrans : ∀ a b c, le a b = true → le b c = true → le a c = true)
    (x : α) (l : List α) (h : l.Pairwise (fun a b => le a b = true)) :
    (insertLe le x l).Pairwise (fun a b => le a b = true) := by
  induction l with
  | nil => simp [insertLe]
  | cons y ys ih =>
    rcases List.pairwise_cons.mp h with ⟨hy, hys⟩
    simp only [insertLe]
    by_cases hxy : le x y = true
    · rw [if_pos hxy]
      refine List.pairwise_cons.mpr ⟨?_, h⟩
      intro z hz
      rcases List.mem_cons.mp hz with hz | hz
      · exact hz ▸ hxy
      · exact htrans x y z hxy (hy z hz)
    · rw [if_neg hxy]
      refine List.pairwise_cons.mpr ⟨?_, ih hys⟩
      intro z hz
      rcases (mem_insertLe le x z ys).mp hz with hz | hz
      · rw [hz]
        rcases htot x y with h1 | h1
        · exact absurd h1 hxy
        · exact h1
      · exact hy z hz

theorem pairwise_insertionSortBy {α : Type} (le : α → α → Bool)
    (htot : ∀ a b, le a b = true ∨ le b a = true)
    (htrans : ∀ a b c, le a b = true → le b c = true → le a c = true)
    (l : List α) :
    (insertionSortBy le l).Pairwise (fun a b => le a b = true) := by
  induction l with
  | nil => simp [insertionSortBy]
  | cons x xs ih => exact pairwise_insertLe le htot htrans x _ ih

/-- The overwrite map `dictSet` applies when the key is present leaves the
`find?` predicate unchanged. -/
theorem dictSet_pred_comp {α : Type} (k k' : String) (v : α) :
    ((fun kv : String × α => kv.1 == k') ∘
        (fun kv : String × α => if kv.1 == k then (k, v) else kv)) =
      (fun kv : String × α => kv.1 == k') ∨ k = k' := by
  by_cases hkk : k = k'
  · exact Or.inr hkk
  · refine Or.inl (funext fun kv => ?_)
    by_cases h : kv.1 == k
    · have h1 : kv.1 = k := by simpa using h
      simp [Function.comp, h, h1, hkk]
    · simp [Function.comp, h]

theorem dictGet_dictSet_self {α : Type} (d : List (String × α)) (k : String)
    (v : α) : dictGet (dictSet d k v) k = some v := by
  rw [dictSet]
  by_cases h : d.any (fun kv => kv.1 == k)
  · rw [if_pos h]
    rw [dictGet, List.find?_map]
    have hcomp : ((fun kv : String × α => kv.1 == k) ∘
        (fun kv : String × α => if kv.1 == k then (k, v) else kv)) =
        (fun kv : String × α => kv.1 == k) := by
      funext kv
      by_cases hkv : kv.1 == k
      · simp [Function.comp, hkv]
      · simp [Function.comp, hkv]
    rw [hcomp]
    rcases List.any_eq_true.mp h with ⟨kv₀, hmem, hp⟩
    have hsome : (d.find? (fun kv => kv.1 == k)).isSome := by
      rw [List.find?_isSome]
      exact ⟨kv₀, hmem, hp⟩
    rcases Option.isSome_iff_exists.mp hsome with ⟨kv₁, hkv₁⟩
    have hp₁ := List.find?_some hkv₁
    have heq : kv₁.1 = k := by simpa using hp₁
    rw [hkv₁]
    simp [heq]
  · rw [if_neg h]
    rw [dictGet, List.find?_append]
    have hnone : d.find? (fun kv => kv.1 == k) = none := by
      rw [List.find?_eq_none]
      intro kv hkv
      intro hp
      exact h (List.any_eq_true.mpr ⟨kv, hkv, hp⟩)
    rw [hnone]
    simp [List.find?]

theorem dictGet_dictSet_ne {α : Type} (d : List (String × α)) (k k' : String)
    (v : α) (hne : k ≠ k') : dictGet (dictSet d k v) k' = dictGet d k' := by
  rw [dictSet]
  by_cases h : d.any (fun kv => kv.1 == k)
  · rw [if_pos h]
    rw [dictGet, List.find?_map]
    rcases dictSet_pred_comp k k' v with hcomp | hcomp
    · rw [hcomp, dictGet]
      cases hfind : d.find? (fun kv => kv.1 == k') with
      | none => simp
      | some kv₀ =>
        have hp₀ := @List.find?_some (String × α)
          (fun kv => kv.1 == k') kv₀ d hfind
        have hne₀ : kv₀.1 ≠ k := by
          have h1 : kv₀.1 = k' := by simpa using hp₀
          simp [h1, Ne.symm hne]
        simp [hne₀]
    · exact absurd hcomp hne
  · rw [if_neg h]
    rw [dictGet, List.find?_append]
    have hlast : List.find? (fun kv : String × α => kv.1 == k') [(k, v)] =
        none := by
      have hb : (k == k') = false := by simp [hne]
      simp [List.find?, hb]
    rw [hlast, dictGet]
    cases d.find? (fun kv => kv.1 == k') <;> simp

/-! ### The tiled-slice bucket computation (claim C6) -/

theorem any_key_iff {α : Type} (bkt : List (String × α)) (k : String) :
    (bkt.any (fun kv => kv.1 == k)) = true ↔ k ∈ bkt.map (fun kv => kv.1) := by
  rw [List.any_eq_true]
  constructor
  · rintro ⟨kv, hmem, hp⟩
    exact List.mem_map.mpr ⟨kv, hmem, by simpa using hp⟩
  · intro h
    rcases List.mem_map.mp h with ⟨kv, hmem, hk⟩
    exact ⟨kv, hmem, by simpa using hk⟩

theorem dedupByIdFirstAux_congr (seen seen' : List String)
    (h : ∀ s, s ∈ seen ↔ s ∈ seen') (fs : List Feature) :
    dedupByIdFirstAux seen fs = dedupByIdFirstAux seen' fs := by
  induction fs generalizing seen seen' with
  | nil => rfl
  | cons f fs ih =>
    simp only [dedupByIdFirstAux]
    by_cases hf : f.fid ∈ seen
    · rw [if_pos hf, if_pos ((h f.fid).mp hf)]
      exact ih seen seen' h
    · rw [if_neg hf, if_neg (fun hc => hf ((h f.fid).mpr hc))]
      refine congrArg (f :: ·) (ih _ _ ?_)
      intro s
      simp only [List.mem_cons]
      exact or_congr Iff.rfl (h s)

theorem setdefaultAll_eq_dedup (fs : List Feature)
    (bkt : List (String × Feature)) :
    setdefaultAll fs bkt =
      bkt ++ (dedupByIdFirstAux (bkt.map (fun kv => kv.1)) fs).map
        (fun f => (f.fid, f)) := by
  induction fs generalizing bkt with
  | nil => simp [setdefaultAll, dedupByIdFirstAux]
  | cons f fs ih =>
    have hstep : setdefaultAll (f :: fs) bkt =
        setdefaultAll fs (bucketSetdefault bkt f.fid f) := rfl
    rw [hstep]
    by_cases hin : (bkt.any (fun kv => kv.1 == f.fid)) = true
    · rw [show bucketSetdefault bkt f.fid f = bkt from by
        rw [bucketSetdefault, if_pos hin]]
      rw [ih]
      simp only [dedupByIdFirstAux, if_pos ((any_key_iff bkt f.fid).mp hin)]
    · rw [show bucketSetdefault bkt f.fid f = bkt ++ [(f.fid, f)] from by
        rw [bucketSetdefault, if_neg hin]]
      rw [ih]
      have hnotin : f.fid ∉ bkt.map (fun kv => kv.1) :=
        fun hc => hin ((any_key_iff bkt f.fid).mpr hc)
      simp only [dedupByIdFirstAux, if_neg hnotin]
      have hcongr : dedupByIdFirstAux
          ((bkt ++ [(f.fid, f)]).map (fun kv => kv.1)) fs =
          dedupByIdFirstAux (f.fid :: bkt.map (fun kv => kv.1)) fs := by
        apply dedupByIdFirstAux_congr
        intro s
        simp [List.mem_append, List.mem_cons, or_comm]
      rw [hcongr]
      simp

theorem dedupByIdFirstAux_nodup (fs : List Feature) (seen : List String) :
    ((dedupByIdFirstAux seen fs).map Feature.fid).Nodup ∧
      ∀ f ∈ dedupByIdFirstAux seen fs, f.fid ∉ seen := by
  induction fs generalizing seen with
  | nil => simp [dedupByIdFirstAux]
  | cons f fs ih =>
    simp only [dedupByIdFirstAux]
    by_cases hf : f.fid ∈ seen
    · rw [if_pos hf]
      exact ih seen
    · rw [if_neg hf]
      obtain ⟨hnd, hseen⟩ := ih (f.fid :: seen)
      constructor
      · simp only [List.map_cons, List.nodup_cons]
        refine ⟨?_, hnd⟩
        intro hc
        rcases List.mem_map.mp hc with ⟨g, hg, hgid⟩
        exact hseen g hg (hgid ▸ List.mem_cons_self _ _)
      · intro g hg
        rcases List.mem_cons.mp hg with hg | hg
        · exact hg ▸ hf
        · exact fun hc =>
            hseen g hg (List.mem_cons_of_mem _ hc)

theorem dedupByIdFirst_nodup (fs : List Feature) :
    ((dedupByIdFirst fs).map Feature.fid).Nodup :=
  (dedupByIdFirstAux_nodup fs []).1

theorem dictGet_foldl_mergeLayerStep (ls : List Layer)
    (acc : List (String × List (String × Feature))) (lid : String)
    (hn : (ls.map (fun l => l.id)).Nodup) :
    dictGet (ls.foldl mergeLayerStep acc) lid =
      match ls.find? (fun l => l.id == lid) with
      | some l => some (setdefaultAll l.features ((dictGet acc lid).getD []))
      | none => dictGet acc lid := by
  induction ls generalizing acc with
  | nil => simp [List.find?]
  | cons l ls ih =>
    simp only [List.map_cons, List.nodup_cons] at hn
    obtain ⟨hhead, htail⟩ := hn
    simp only [List.foldl_cons]
    by_cases hl : l.id = lid
    · have hfind : (l :: ls).find? (fun l => l.id == lid) = some l := by
        simp [List.find?, hl]
      rw [hfind]
      have hnone : ls.find? (fun l => l.id == lid) = none := by
        rw [List.find?_eq_none]
        intro x hx hp
        exact hhead (by
          have hxid : x.id = lid := by simpa using hp
          rw [← hl] at hxid
          exact List.mem_map.mpr ⟨x, hx, hxid⟩)
      rw [ih _ htail, hnone]
      rw [mergeLayerStep, hl, dictGet_dictSet_self]
    · have hfind : (l :: ls).find? (fun l => l.id == lid) =
          ls.find? (fun l => l.id == lid) := by
        have hb : (l.id == lid) = false := by simp [hl]
        simp [List.find?, hb]
      rw [hfind, ih _ htail]
      rw [mergeLayerStep, dictGet_dictSet_ne _ _ _ _ hl]

theorem setdefaultAll_append (a b : List Feature)
    (bkt : List (String × Feature)) :
    setdefaultAll (a ++ b) bkt = setdefaultAll b (setdefaultAll a bkt) :=
  List.foldl_append _ _ _ _

theorem dictGet_tiles_fold (sliceOf : Tile → LayerBundle) (lid : String)
    (hnall : ∀ t, ((sliceOf t).layers.map (fun l => l.id)).Nodup)
    (tiles : List Tile) :
    ∀ (acc : List (String × List (String × Feature)))
      (bkt : List (String × Feature)), dictGet acc lid = some bkt →
      dictGet (tiles.foldl (fun acc t => mergeTileBundle acc (sliceOf t))
          acc) lid =
        some (setdefaultAll
          (tiles.flatMap (fun t => featuresOfLayer (sliceOf t) lid)) bkt) := by
  induction tiles with
  | nil =>
    intro acc bkt hb
    simpa [setdefaultAll] using hb
  | cons t ts ih =>
    intro acc bkt hb
    have hmerge : dictGet (mergeTileBundle acc (sliceOf t)) lid =
        some (setdefaultAll (featuresOfLayer (sliceOf t) lid) bkt) := by
      rw [mergeTileBundle, dictGet_foldl_mergeLayerStep _ _ _ (hnall t)]
      rw [featuresOfLayer, LayerBundle.get]
      cases hfind : (sliceOf t).layers.find? (fun l => l.id == lid) with
      | none => simpa [setdefaultAll, hfind] using hb
      | some l => simp [hfind, hb]
    simp only [List.foldl_cons, List.flatMap_cons, setdefaultAll_append]
    exact ih _ _ hmerge

theorem dictGet_init_fold (ls : List Layer) (lid : String) :
    ∀ d : List (String × List (String × Feature)),
      dictGet (ls.foldl (fun d l => dictSet d l.id []) d) lid =
        if lid ∈ ls.map (fun l => l.id) then some [] else dictGet d lid := by
  induction ls with
  | nil => intro d; simp
  | cons l ls ih =>
    intro d
    simp only [List.foldl_cons, List.map_cons, List.mem_cons]
    rw [ih]
    by_cases hmem : lid ∈ ls.map (fun l => l.id)
    · simp [hmem]
    · rw [if_neg hmem]
      by_cases hl : lid = l.id
      · rw [if_pos (Or.inl hl), hl, dictGet_dictSet_self]
      · rw [if_neg (by tauto), dictGet_dictSet_ne _ _ _ _ (Ne.symm hl)]

theorem slice_layers_ids (layers : LayerBundle) (aoi : BBox) :
    (slice_layers layers aoi).layers.map (fun l => l.id) =
      layers.layers.map (fun l => l.id) := by
  simp only [slice_layers, List.map_map]
  rfl

theorem dictGet_pairs (dd : List Feature)
    (h : (dd.map Feature.fid).Nodup) (g : Feature) (hg : g ∈ dd) :
    dictGet (dd.map (fun f => (f.fid, f))) g.fid = some g := by
  induction dd with
  | nil => simp at hg
  | cons f dds ih =>
    simp only [List.map_cons, List.nodup_cons] at h
    obtain ⟨hhead, htail⟩ := h
    rcases List.mem_cons.mp hg with hg | hg
    · subst hg
      simp [dictGet, List.find?]
    · have hne : g.fid ≠ f.fid := by
        intro hc
        exact hhead (hc ▸ List.mem_map.mpr ⟨g, hg, rfl⟩)
      have hb : (f.fid == g.fid) = false := by
        simp [Ne.symm hne]
      simp only [List.map_cons, dictGet, List.find?, hb]
      exact ih htail hg

theorem dictGet_pairs_fid (dd : List Feature) (k : String) (g : Feature)
    (h : dictGet (dd.map (fun f => (f.fid, f))) k = some g) : g.fid = k := by
  rw [dictGet] at h
  cases hfind : (dd.map (fun f => (f.fid, f))).find? (fun kv => kv.1 == k) with
  | none => rw [hfind] at h; simp at h
  | some kv =>
    rw [hfind] at h
    simp only [Option.map_some'] at h
    have hp := List.find?_some hfind
    have hmem := List.mem_of_find?_eq_some hfind
    rcases List.mem_map.mp hmem with ⟨f, _, hf⟩
    have h1 : kv.1 = k := by simpa using hp
    have h2 : kv.2.fid = kv.1 := by rw [← hf]
    have h3 : kv.2 = g := by simpa using h
    rw [← h3, h2, h1]

/-- Python's `sorted(bucket.keys())` followed by `bucket[k]` lookups equals
sorting the bucket's features by id, when the ids are distinct. -/
theorem sorted_lookup_eq_sorted_feats (dd : List Feature)
    (h : (dd.map Feature.fid).Nodup) :
    (insertionSortBy strLe (dd.map Feature.fid)).filterMap
        (fun k => dictGet (dd.map (fun f => (f.fid, f))) k) =
      insertionSortBy featIdLe dd := by
  have permKeys := perm_insertionSortBy strLe (dd.map Feature.fid)
  have permLHS :
      List.Perm ((insertionSortBy strLe (dd.map Feature.fid)).filterMap
        (fun k => dictGet (dd.map (fun f => (f.fid, f))) k)) dd := by
    refine (permKeys.filterMap _).trans ?_
    rw [List.filterMap_map]
    rw [show (dd.filterMap
        ((fun k => dictGet (dd.map (fun f => (f.fid, f))) k) ∘ Feature.fid)) =
        dd.filterMap some from List.filterMap_congr
      (fun g hg => dictGet_pairs dd h g hg)]
    rw [List.filterMap_some]
  have permRHS := perm_insertionSortBy featIdLe dd
  have hStrTot : ∀ a b : String, strLe a b = true ∨ strLe b a = true := by
    intro a b
    rcases le_total a b with h1 | h1
    · exact Or.inl (by unfold strLe; exact decide_eq_true h1)
    · exact Or.inr (by unfold strLe; exact decide_eq_true h1)
  have hStrTrans : ∀ a b c : String, strLe a b = true → strLe b c = true →
      strLe a c = true := by
    intro a b c h1 h2
    unfold strLe at h1 h2 ⊢
    exact decide_eq_true (le_trans (of_decide_eq_true h1)
      (of_decide_eq_true h2))
  have hKeysSorted := pairwise_insertionSortBy strLe hStrTot hStrTrans
    (dd.map Feature.fid)
  have hKeysNodup : (insertionSortBy strLe (dd.map Feature.fid)).Nodup :=
    permKeys.symm.nodup h
  have hKeysStrict : (insertionSortBy strLe (dd.map Feature.fid)).Pairwise
      (fun a b : String => a < b) := by
    refine (hKeysSorted.and hKeysNodup).imp ?_
    rintro a b ⟨hle, hne⟩
    exact lt_of_le_of_ne (by unfold strLe at hle; exact of_decide_eq_true hle)
      hne
  have hLHSsorted :
      ((insertionSortBy strLe (dd.map Feature.fid)).filterMap
        (fun k => dictGet (dd.map (fun f => (f.fid, f))) k)).Pairwise
      (fun a b : Feature => a.fid < b.fid) := by
    rw [List.pairwise_filterMap]
    refine hKeysStrict.imp ?_
    intro a b hab x hx y hy
    rw [Option.mem_def] at hx hy
    rw [dictGet_pairs_fid dd a x hx, dictGet_pairs_fid dd b y hy]
    exact hab
  have hRHSle := pairwise_insertionSortBy featIdLe
    (fun a b => hStrTot a.fid b.fid) (fun a b c => hStrTrans a.fid b.fid c.fid)
    dd
  have hRHSNodup : ((insertionSortBy featIdLe dd).map Feature.fid).Nodup :=
    (permRHS.map Feature.fid).symm.nodup h
  have hRHSne : (insertionSortBy featIdLe dd).Pairwise
      (fun a b : Feature => a.fid ≠ b.fid) :=
    List.pairwise_map.mp hRHSNodup
  have hRHSsorted : (insertionSortBy featIdLe dd).Pairwise
      (fun a b : Feature => a.fid < b.fid) := by
    refine (hRHSle.and hRHSne).imp ?_
    rintro a b ⟨hle, hne⟩
    refine lt_of_le_of_ne ?_ hne
    unfold featIdLe strLe at hle
    exact of_decide_eq_true hle
  haveI : IsAntisymm Feature (fun a b : Feature => a.fid < b.fid) :=
    ⟨fun a b h1 h2 => absurd (lt_trans h1 h2) (lt_irrefl _)⟩
  exact List.eq_of_perm_of_sorted (permLHS.trans permRHS.symm) hLHSsorted
    hRHSsorted

/-- C6: for every AOI, tile zoom, tile enumeration and tile-bbox function,
`slice_layers_tiled` (with distinct layer ids, data-model invariant 1)
returns the bundle whose layers keep the input skeleton and whose per-layer
features are exactly the first-occurrence deduplication (by feature id) of
the concatenated per-tile `slice_layers` results, sorted by feature id —
and every feature id appears exactly once per layer. -/
theorem C6_slice_layers_tiled_is_sorted_dedup_union
    (tilesFor : ℤ → BBox → List Tile) (tileBBoxFn : Tile → BBox)
    (layers : LayerBundle) (aoi : BBox) (tile_zoom : ℤ)
    (hn : (layers.layers.map (fun l => l.id)).Nodup) :
    slice_layers_tiled tilesFor tileBBoxFn layers aoi tile_zoom =
      ⟨layers.layers.map (fun base =>
        { base with features :=
            insertionSortBy featIdLe (dedupByIdFirst
              ((insertionSortBy tileLe (tilesFor tile_zoom aoi)).flatMap
                (fun t =>
                  featuresOfLayer (slice_layers layers (tileBBoxFn t))
                    base.id))) })⟩ ∧
    ∀ l ∈ (slice_layers_tiled tilesFor tileBBoxFn layers aoi
        tile_zoom).layers,
      (l.features.map Feature.fid).Nodup := by
  have hmain : slice_layers_tiled tilesFor tileBBoxFn layers aoi tile_zoom =
      ⟨layers.layers.map (fun base =>
        { base with features :=
            insertionSortBy featIdLe (dedupByIdFirst
              ((insertionSortBy tileLe (tilesFor tile_zoom aoi)).flatMap
                (fun t =>
                  featuresOfLayer (slice_layers layers (tileBBoxFn t))
                    base.id))) })⟩ := by
    rw [slice_layers_tiled]
    by_cases htiles : tilesFor tile_zoom aoi = []
    · rw [if_pos htiles, htiles]
      simp [insertionSortBy, dedupByIdFirst, dedupByIdFirstAux]
    · rw [if_neg htiles]
      dsimp only
      congr 1
      apply List.map_congr_left
      intro base hbase
      have hmem : base.id ∈ layers.layers.map (fun l => l.id) :=
        List.mem_map.mpr ⟨base, hbase, rfl⟩
      have hinit : dictGet
          (layers.layers.foldl (fun d l => dictSet d l.id [])
            ([] : List (String × List (String × Feature)))) base.id =
          some [] := by
        rw [dictGet_init_fold, if_pos hmem]
      have hfold := dictGet_tiles_fold
        (fun t => slice_layers layers (tileBBoxFn t)) base.id
        (fun t => by rw [slice_layers_ids]; exact hn)
        (insertionSortBy tileLe (tilesFor tile_zoom aoi)) _ [] hinit
      rw [hfold]
      rw [setdefaultAll_eq_dedup]
      simp only [List.map_nil, List.nil_append, Option.getD_some]
      rw [show dedupByIdFirstAux []
          ((insertionSortBy tileLe (tilesFor tile_zoom aoi)).flatMap
            (fun t =>
              featuresOfLayer (slice_layers layers (tileBBoxFn t)) base.id)) =
          dedupByIdFirst
          ((insertionSortBy tileLe (tilesFor tile_zoom aoi)).flatMap
            (fun t =>
              featuresOfLayer (slice_layers layers (tileBBoxFn t)) base.id))
        from rfl]
      rw [show ((dedupByIdFirst
          ((insertionSortBy tileLe (tilesFor tile_zoom aoi)).flatMap
            (fun t =>
              featuresOfLayer (slice_layers layers (tileBBoxFn t))
                base.id))).map (fun f => (f.fid, f))).map
          (fun kv => kv.1) =
          (dedupByIdFirst
          ((insertionSortBy tileLe (tilesFor tile_zoom aoi)).flatMap
            (fun t =>
              featuresOfLayer (slice_layers layers (tileBBoxFn t))
                base.id))).map Feature.fid from by
        rw [List.map_map]; rfl]
      rw [sorted_lookup_eq_sorted_feats _ (dedupByIdFirst_nodup _)]
  refine ⟨hmain, ?_⟩
  intro l hl
  rw [hmain] at hl
  simp only [List.mem_map] at hl
  obtain ⟨base, _, hbase⟩ := hl
  rw [← hbase]
  have hperm := perm_insertionSortBy featIdLe (dedupByIdFirst
    ((insertionSortBy tileLe (tilesFor tile_zoom aoi)).flatMap
      (fun t =>
        featuresOfLayer (slice_layers layers (tileBBoxFn t)) base.id)))
  exact ((hperm.map Feature.fid).symm.nodup (dedupByIdFirst_nodup _))

/-- C6 witness: the tiled slice over the two tiles is the deduplicated,
id-sorted union `[p1, p2]`. -/
theorem C6_slice_layers_tiled_witness :
    slice_layers_tiled c6TilesFor c6TileBBox c6Bundle ⟨0, 0, 3, 1⟩ 1 =
      ⟨[⟨"pts", .points, "Pts",
        [.point ⟨"p1", 0, 0, []⟩, .point ⟨"p2", 2, 0, []⟩], []⟩]⟩ := by
  have h := C6_slice_layers_tiled_is_sorted_dedup_union c6TilesFor c6TileBBox
    c6Bundle ⟨0, 0, 3, 1⟩ 1 (by decide)
  rw [h.1]
  simp +decide [c6TilesFor, c6TileBBox, c6Bundle, insertionSortBy, insertLe,
    tileLe, featuresOfLayer, slice_layers, LayerBundle.get, List.find?,
    layerGeomEnvs, featureEnvelope, bboxIntersects, dedupByIdFirst,
    dedupByIdFirstAux, featIdLe, strLe, Feature.fid, List.filter,
    List.range, List.range']

end GeoBackend
